import Mathlib

/-!
Shallow embedding of the Czech Fool card-game server (`src/server.py`).

The Python server is an asynchronous websocket program; the game-relevant
state lives in the `Room` dataclass and is mutated by handler methods of
`GameServer`.  We embed the state as an immutable `Room` structure and each
handler as a pure function `Room → … → Result`, threading the mutations the
Python code performs in source order.  Randomness (`random.shuffle`,
`random.choice`, `uuid.uuid4`) is made explicit: shuffles become a `shuffle`
function parameter (theorems assume it preserves length or is a
permutation where needed), random choices become value parameters, and the
random uuids of cards are replaced by deterministic distinct id strings
(identity of a card is its `id` field, exactly as in the source).
-/

namespace CzechFool

/-- `Card` dataclass (server.py:12-19): suit, rank and an opaque unique id. -/
structure Card where
  suit : String
  rank : String
  id : String
deriving DecidableEq, Repr

/-- `Player` dataclass (server.py:21-28).  The Python `hand` is a list of
cards; `score` is an ordinary Python int, so we use `Int` (it can go
negative via the queen bonus). -/
structure Player where
  id : String
  nickname : String
  hand : List Card
  ready : Bool
  score : Int := 0
  is_bot : Bool := false
deriving DecidableEq, Repr

/-- `Room` dataclass (server.py:49-67).  `players` is a Python dict in
insertion order whose key is the player id, so we model it as an ordered
list; `player_ids = list(room.players.keys())` is `players.map Player.id`.
The draw pile `deck` and the `discard_pile` have their top at the END of
the list (`list.pop()` / `[-1]`), as in the source.  The transient
`eight_drawn_cards` set of card ids (attached dynamically in the source)
is modelled as a list of ids. -/
structure Room where
  players : List Player
  deck : List Card
  discard_pile : List Card
  current_player_index : Nat
  dealer_index : Nat
  game_started : Bool
  chosen_suit : Option String := none
  waiting_for_eight : Bool := false
  card_drawn_this_turn : Bool := false
  eight_draw_used : Bool := false
  eight_drawn_cards : List String := []
  last_loser_id : Option String := none
  deck_size : Nat := 52
deriving DecidableEq, Repr

/-- The earlier, 3-parameter `can_play_card` (server.py:249-259).  It is
shadowed by the later 4-parameter definition below, exactly as in the
Python module where the second `def can_play_card` replaces the first. -/
def can_play_card_v1 (card top_card : Card) (chosen_suit : Option String) : Bool :=
  if card.rank == "Q" then true
  else
    match chosen_suit with
    | some s => card.suit == s || card.rank == top_card.rank
    | none => card.suit == top_card.suit || card.rank == top_card.rank

/-- The later, 4-parameter `can_play_card` (server.py:701-712); this is the
definition the running server actually uses. -/
def can_play_card (card top_card : Card) (chosen_suit : Option String)
    (waiting_for_eight : Bool) : Bool :=
  if waiting_for_eight then card.rank == "2"
  else if card.rank == "Q" then true
  else
    match chosen_suit with
    | some s => card.suit == s || card.rank == top_card.rank
    | none => card.suit == top_card.suit || card.rank == top_card.rank

/-- `calculate_card_points` (server.py:261-272), transcribed branch by
branch. -/
def calculate_card_points (card : Card) : Int :=
  if card.rank == "2" then 2
  else if card.rank == "3" then 3
  else if card.rank == "4" then 4
  else if card.rank == "5" then 5
  else if card.rank == "6" then 6
  else if card.rank == "7" then 7
  else if card.rank == "8" then 8
  else if card.rank == "9" then 9
  else if card.rank == "10" then 10
  else if card.rank == "J" then 2
  else if card.rank == "Q" then (if card.suit == "spades" then 40 else 20)
  else if card.rank == "K" then 4
  else if card.rank == "A" then 11
  else 0

/-- `calculate_hand_points` (server.py:274-275). -/
def calculate_hand_points (hand : List Card) : Int :=
  (hand.map calculate_card_points).sum

/-- Pop from the end of a list: Python `lst.pop()`.  Returns the popped
element and the remaining list, or `none` on an empty list. -/
def drawTop (deck : List Card) : Option (Card × List Card) :=
  match deck.getLast? with
  | some c => some (c, deck.dropLast)
  | none => none

/-- `replenish_deck` (server.py:277-291): when the draw pile is empty and
the discard pile holds more than one card, every discard card except the
top is shuffled into a new draw pile and the discard keeps only its former
top.  Returns the new deck, the new discard pile, and the "was shuffled"
flag the Python function returns.  `shuffle` stands for
`random.shuffle`. -/
def replenish_deck (shuffle : List Card → List Card) (deck discard_pile : List Card) :
    List Card × List Card × Bool :=
  if deck.length = 0 ∧ discard_pile.length > 1 then
    match discard_pile.getLast? with
    | some top_card => (shuffle discard_pile.dropLast, [top_card], true)
    | none => (deck, discard_pile, false)
  else (deck, discard_pile, false)

/-- Total number of cards in a room: draw pile + discard pile + all hands.
This is the conserved quantity of the spec's Conservation invariant. -/
def totalCards (room : Room) : Nat :=
  room.deck.length + room.discard_pile.length + (room.players.map (·.hand.length)).sum

/-- Result of `handle_play_card`.  `silent` models the Python paths that
return without replying or mutating (missing room, not started, index out
of range); `error` models an `error` event reply with no state mutation;
`gameEnd` models the call to `handle_game_end` (the room argument is the
room state at the moment of that call — `current_player_index` has not
been advanced); `ok` is a completed turn. -/
inductive PlayCardResult where
  | silent
  | error (msg : String)
  | gameEnd (room : Room) (winner_id : String)
  | ok (room : Room)
deriving DecidableEq, Repr

/-- One forced draw by the seat at index `j`: replenish the deck if needed,
then pop the deck's top into that seat's hand (skipped when the deck is
still empty).  This is the `if self.replenish_deck(room): …;
if room.deck: next_player.hand.append(room.deck.pop())` sequence used by
the rank-6 and rank-7 effects (server.py:910-933). -/
def seat_draw (shuffle : List Card → List Card) (room : Room) (j : Nat) : Room :=
  match room.players.get? j with
  | none => room
  | some pl =>
    let rep := replenish_deck shuffle room.deck room.discard_pile
    let room1 := { room with deck := rep.1, discard_pile := rep.2.1 }
    match drawTop room1.deck with
    | some (c, deck') =>
      { room1 with
        deck := deck',
        players := room1.players.set j { pl with hand := pl.hand ++ [c] } }
    | none => room1

/-- The hand-to-discard move of `handle_play_card` (server.py:895-902):
remove the card from the current seat's hand, append it to the discard
pile, and clear `chosen_suit` unless a Queen was played. -/
def play_board_update (room : Room) (player : Player) (card : Card) : Room :=
  let room1 := { room with
    players := room.players.set room.current_player_index
      { player with hand := player.hand.erase card },
    discard_pile := room.discard_pile ++ [card] }
  if card.rank ≠ "Q" then { room1 with chosen_suit := none } else room1

/-- The rank-6 / rank-7 forced-draw effects run before the win check
(server.py:904-933): the next seat draws 1 (rank 6) or 2 (rank 7) cards
and the turn target advances past it.  Returns the room and the turn
target index. -/
def effects67 (shuffle : List Card → List Card) (card : Card) (n : Nat) (room : Room)
    (next0 : Nat) : Room × Nat :=
  if card.rank == "6" then (seat_draw shuffle room next0, (next0 + 1) % n)
  else if card.rank == "7" then
    (seat_draw shuffle (seat_draw shuffle room next0) next0, (next0 + 1) % n)
  else (room, next0)

/-- The 8/Q effects run after the win check (server.py:941-954): rank 8 in
the 52-card variant raises the 8-chain, a Queen stores the requested
chosen suit (when one was supplied). -/
def post_effects (card : Card) (chosen_suit_arg : Option String) (room : Room) : Room :=
  if card.rank == "8" && decide (room.deck_size = 52) then
    { room with waiting_for_eight := true, eight_draw_used := false }
  else if card.rank == "Q" then
    match chosen_suit_arg with
    | some s => { room with chosen_suit := some s }
    | none => room
  else room

/-- The tail of `handle_play_card` after the legality check has passed
(server.py:895-957): move the card from the hand to the discard pile,
clear `chosen_suit` for non-Queens, run the 6/7 forced-draw effects, check
for the round win, then run the A/8/Q effects and advance the turn. -/
def play_move (shuffle : List Card → List Card) (room : Room) (player : Player)
    (card : Card) (chosen_suit_arg : Option String) : PlayCardResult :=
  let room2 := play_board_update room player card
  let n := room2.players.length
  let next0 := (room.current_player_index + 1) % n
  let step := effects67 shuffle card n room2 next0
  match step.1.players.get? room.current_player_index with
  | none => .silent
  | some cur =>
    if cur.hand.length = 0 then .gameEnd step.1 player.id
    else
      .ok { post_effects card chosen_suit_arg step.1 with
        current_player_index := if card.rank == "A" then (step.2 + 1) % n else step.2,
        card_drawn_this_turn := false }

/-- `handle_play_card` (server.py:832-1010), state-transition part.  The
requesting seat is `player_id` (for a bot invocation the Python code
passes `bot_id`; the transition logic is identical).  Message fan-out is
modelled separately (see the message builders below). -/
def handle_play_card (shuffle : List Card → List Card) (room : Room)
    (player_id card_id : String) (chosen_suit_arg : Option String) : PlayCardResult :=
  if ¬ room.game_started then .silent
  else
    match room.players.get? room.current_player_index with
    | none => .silent
    | some player =>
      if player.id ≠ player_id then .error "Not your turn"
      else
        match player.hand.find? (fun c => c.id == card_id) with
        | none => .error "Card not found"
        | some card =>
          match room.discard_pile.getLast? with
          | none => .error "No cards on table"
          | some top_card =>
            if room.waiting_for_eight then
              if card.rank ≠ "2" ∧ ¬ room.eight_drawn_cards.contains card.id then
                .error "Must play a 2 or draw cards"
              else
                play_move shuffle
                  { room with
                    waiting_for_eight := false, eight_draw_used := false,
                    eight_drawn_cards := [] } player card chosen_suit_arg
            else
              if ¬ can_play_card card top_card room.chosen_suit room.waiting_for_eight then
                .error "Cannot play this card"
              else play_move shuffle room player card chosen_suit_arg

/-- The draw-until-match qualification test of the 8-chain
(server.py:1088-1091): rank 2, rank Q, rank 8, or same suit as the top
discard. -/
def eight_match (c top : Card) : Bool :=
  c.rank == "2" || c.rank == "Q" || c.rank == "8" || c.suit == top.suit

/-- The `while iterations < max_iterations` loop of the 8-chain draw
(server.py:1058-1096), with the iteration counter as explicit fuel (the
source uses `max_iterations = 1000`).  Each pass replenishes the deck if
needed, stops if the deck (or the discard pile) is still empty, otherwise
pops one card into the hand and the drawn list, stopping when the card
qualifies.  Returns (deck, discard, hand, drawn). -/
def eight_draw_loop (shuffle : List Card → List Card) :
    Nat → List Card → List Card → List Card → List Card →
    List Card × List Card × List Card × List Card
  | 0, deck, discard, hand, drawn => (deck, discard, hand, drawn)
  | fuel+1, deck, discard, hand, drawn =>
    let rep := replenish_deck shuffle deck discard
    let deck1 := rep.1
    let discard1 := rep.2.1
    match drawTop deck1 with
    | none => (deck1, discard1, hand, drawn)
    | some (c, deck2) =>
      match discard1.getLast? with
      | none => (deck1, discard1, hand, drawn)
      | some top =>
        if eight_match c top then (deck2, discard1, hand ++ [c], drawn ++ [c])
        else eight_draw_loop shuffle fuel deck2 discard1 (hand ++ [c]) (drawn ++ [c])

/-- Result of `handle_draw_card`: the new room state and the list of drawn
cards, or an error reply / silent return with no state change. -/
inductive DrawCardResult where
  | silent
  | error (msg : String)
  | ok (room : Room) (drawn_cards : List Card)
deriving DecidableEq, Repr

/-- `handle_draw_card` (server.py:1012-1196), state-transition part.  The
voluntary branch refuses a second draw in the same turn and refuses on an
exhausted deck (in that case `replenish_deck` was a no-op, so the error
reply leaves the room unchanged, as in the source).  The 8-chain branch
latches `eight_draw_used`, runs the draw-until-match loop, records the
drawn ids in `eight_drawn_cards`, and clears the chain with a forced turn
advance when no qualifying card ended the loop. -/
def handle_draw_card (shuffle : List Card → List Card) (room : Room)
    (player_id : String) : DrawCardResult :=
  if ¬ room.game_started then .silent
  else
    match room.players.get? room.current_player_index with
    | none => .silent
    | some player =>
      if player.id ≠ player_id then .error "Not your turn"
      else if room.waiting_for_eight then
        if room.eight_draw_used then .error "Вы уже использовали взятие карт на восьмёрку"
        else
          let res := eight_draw_loop shuffle 1000 room.deck room.discard_pile player.hand []
          let drawn := res.2.2.2
          let room1 := { room with
            eight_draw_used := true,
            deck := res.1, discard_pile := res.2.1,
            players := room.players.set room.current_player_index
              { player with hand := res.2.2.1 },
            eight_drawn_cards := room.eight_drawn_cards ++ drawn.map (·.id) }
          if drawn.isEmpty then
            .ok { room1 with
              waiting_for_eight := false, eight_draw_used := false,
              eight_drawn_cards := [],
              current_player_index :=
                (room1.current_player_index + 1) % room1.players.length } []
          else
            let card_matches : Bool :=
              match drawn.getLast?, room1.discard_pile.getLast? with
              | some last, some top => eight_match last top
              | _, _ => false
            if card_matches then .ok room1 drawn
            else
              .ok { room1 with
              waiting_for_eight := false, eight_draw_used := false,
                eight_drawn_cards := [],
                current_player_index :=
                  (room1.current_player_index + 1) % room1.players.length } drawn
      else
        if room.card_drawn_this_turn then .error "Вы уже взяли карту в этом ходу"
        else
          let rep := replenish_deck shuffle room.deck room.discard_pile
          let room1 := { room with deck := rep.1, discard_pile := rep.2.1 }
          match drawTop room1.deck with
          | none => .error "Колода пуста"
          | some (card, deck') =>
            .ok { room1 with
              deck := deck',
              players := room1.players.set room1.current_player_index
                { player with hand := player.hand ++ [card] },
              card_drawn_this_turn := true } [card]

/-- Result of `handle_skip_turn`. -/
inductive SkipResult where
  | silent
  | error (msg : String)
  | ok (room : Room)
deriving DecidableEq, Repr

/-- `handle_skip_turn` (server.py:1351-1419), state-transition part: the
current seat may pass only when no 8-chain is pending and it already drew
this turn; on success the turn pointer advances by one seat and the
drawn-this-turn latch resets. -/
def handle_skip_turn (room : Room) (player_id : String) : SkipResult :=
  if ¬ room.game_started then .silent
  else
    match room.players.get? room.current_player_index with
    | none => .silent
    | some player =>
      if player.id ≠ player_id then .error "Not your turn"
      else if room.waiting_for_eight then .error "Нельзя пропустить ход на восьмёрке"
      else if ¬ room.card_drawn_this_turn then .error "Сначала возьмите карту из колоды"
      else
        .ok { room with
          current_player_index := (room.current_player_index + 1) % room.players.length,
          card_drawn_this_turn := false }

/-- One entry of the `results` list built by `handle_game_end`
(server.py:1212-1235). -/
structure RoundResult where
  player_id : String
  nickname : String
  points : Int
  total_score : Int
  hand : List Card
deriving DecidableEq, Repr

/-- The Queen bonus of the winning (top discard) card (server.py:1204-1210):
−40 for the Queen of spades, −20 for any other Queen, 0 otherwise. -/
def queen_bonus (winning_card : Option Card) : Int :=
  match winning_card with
  | some c => if c.rank == "Q" then (if c.suit == "spades" then -40 else -20) else 0
  | none => 0

/-- The results entry for one player (server.py:1214-1235): a non-winner is
charged its hand's points, the winner is charged the queen bonus. -/
def result_entry (winner_id : String) (qb : Int) (p : Player) : RoundResult :=
  if p.id ≠ winner_id then
    { player_id := p.id, nickname := p.nickname,
      points := calculate_hand_points p.hand,
      total_score := p.score + calculate_hand_points p.hand, hand := p.hand }
  else
    { player_id := p.id, nickname := p.nickname, points := qb,
      total_score := p.score + qb, hand := [] }

/-- The score mutation performed on one player in the same loop
(server.py:1214-1235). -/
def tally_player (winner_id : String) (qb : Int) (p : Player) : Player :=
  if p.id ≠ winner_id then { p with score := p.score + calculate_hand_points p.hand }
  else { p with score := p.score + qb }

/-- The round-loser search (server.py:1239-1244): the non-winner with the
strictly largest round points, first one wins ties, starting from −1. -/
def find_round_loser (winner_id : String) (results : List RoundResult) : Option String :=
  (results.foldl
    (fun (acc : Option String × Int) r =>
      if r.player_id ≠ winner_id ∧ r.points > acc.2 then (some r.player_id, r.points)
      else acc)
    (none, -1)).1

/-- The final-winner search on room destruction (server.py:1283-1288): the
non-kicked player with the strictly smallest score, first one wins ties
(`min_score` starts at `float('inf')`, modelled by the `none`
accumulator). -/
def find_final_winner (players : List Player) (kicked : List String) : Option String :=
  (players.foldl
    (fun (acc : Option (String × Int)) p =>
      if kicked.contains p.id then acc
      else
        match acc with
        | none => some (p.id, p.score)
        | some pr => if p.score < pr.2 then some (p.id, p.score) else acc)
    none).map Prod.fst

/-- Outcome of `handle_game_end`: the broadcast results, the kicked seats,
whether the room was destroyed (deleted from memory and from the database),
the declared final winner (destruction case only), and the resulting room
state (meaningful only when not destroyed). -/
structure GameEndOutcome where
  results : List RoundResult
  kicked : List String
  destroyed : Bool
  final_winner : Option String
  room : Room
deriving DecidableEq, Repr

/-- `handle_game_end` (server.py:1198-1349), state-transition part: tally
round points, reset exact-101 scores to 0, kick seats above 101, destroy
the room when fewer than 2 seats would remain (declaring the lowest-score
survivor the final winner), otherwise remove the kicked seats and reset the
room to lobby state. -/
def handle_game_end (room : Room) (winner_id : String) : GameEndOutcome :=
  let qb := queen_bonus room.discard_pile.getLast?
  let results := room.players.map (result_entry winner_id qb)
  let tallied := room.players.map (tally_player winner_id qb)
  let round_loser := find_round_loser winner_id results
  let processed := tallied.map (fun p => if p.score = 101 then { p with score := 0 } else p)
  let kicked := (tallied.filter (fun p => p.score > 101)).map Player.id
  let last_loser : Option String :=
    match round_loser with
    | some lid => if kicked.contains lid then none else some lid
    | none => none
  if kicked ≠ [] ∧ room.players.length - kicked.length < 2 then
    { results := results, kicked := kicked, destroyed := true,
      final_winner := find_final_winner processed kicked,
      room := { room with players := processed, last_loser_id := last_loser } }
  else
    let survivors := processed.filter (fun p => ¬ kicked.contains p.id)
    { results := results, kicked := kicked, destroyed := false, final_winner := none,
      room := { room with
        players := survivors.map (fun p => { p with hand := [], ready := p.is_bot }),
        game_started := false, deck := [], discard_pile := [],
        chosen_suit := none, waiting_for_eight := false, eight_draw_used := false,
        last_loser_id := last_loser } }

/-- `create_deck` (server.py:232-247) before the shuffle: four suits times
9 ranks (36-card variant, ranks 2-5 excluded) or 13 ranks.  The random
uuid ids are modelled by the deterministic distinct string `suit ++ "-" ++
rank`; the shuffle is applied by the caller (`start_game`). -/
def create_deck_cards (deck_size : Nat) : List Card :=
  let suits := ["hearts", "diamonds", "clubs", "spades"]
  let ranks := if deck_size = 36 then ["6", "7", "8", "9", "10", "J", "Q", "K", "A"]
    else ["2", "3", "4", "5", "6", "7", "8", "9", "10", "J", "Q", "K", "A"]
  (suits.map (fun s => ranks.map
    (fun r => ({ suit := s, rank := r, id := s ++ "-" ++ r } : Card)))).flatten

/-- `[room.deck.pop() for _ in range(k)]`: pop `k` cards off the end of the
deck (stopping early on an empty deck, where Python would raise). -/
def deal_cards : List Card → Nat → List Card × List Card
  | deck, 0 => ([], deck)
  | deck, k+1 =>
    match drawTop deck with
    | some (c, deck') =>
      let rest := deal_cards deck' k
      (c :: rest.1, rest.2)
    | none => ([], deck)

/-- The dealing loop of `start_game` (server.py:722-724): each seat in
order replaces its hand with 5 cards popped off the deck. -/
def deal_all : List Player → List Card → List Player × List Card
  | [], deck => ([], deck)
  | p :: ps, deck =>
    let hd := deal_cards deck 5
    let rest := deal_all ps hd.2
    ({ p with hand := hd.1 } :: rest.1, rest.2)

/-- Dealer choice in `start_game` (server.py:730-737): the previous round's
loser if still seated, else the random pick `dealer_choice` (reduced mod
the seat count). -/
def start_game_dealer (dealer_choice : Nat) (room : Room) : Nat :=
  match room.last_loser_id with
  | some lid =>
    if (room.players.map Player.id).contains lid
    then (room.players.map Player.id).indexOf lid
    else dealer_choice % room.players.length
  | none => dealer_choice % room.players.length

/-- The first table card's own effect at game start (server.py:740-782):
6/7 force the first seat to draw and skip, an 8 (52-card variant) opens an
8-chain, an A skips, a Q auto-chooses the random suit `q_suit`. -/
def start_game_first_effect (shuffle : List Card → List Card) (q_suit : String)
    (first_card : Card) (room : Room) : Room :=
  let n := room.players.length
  if first_card.rank == "6" then
    let r := seat_draw shuffle room room.current_player_index
    { r with current_player_index := (r.current_player_index + 1) % n }
  else if first_card.rank == "7" then
    let r := seat_draw shuffle (seat_draw shuffle room room.current_player_index)
      room.current_player_index
    { r with current_player_index := (r.current_player_index + 1) % n }
  else if first_card.rank == "8" && decide (room.deck_size = 52) then
    { room with waiting_for_eight := true, eight_draw_used := false }
  else if first_card.rank == "A" then
    { room with current_player_index := (room.current_player_index + 1) % n }
  else if first_card.rank == "Q" then
    { room with chosen_suit := some q_suit }
  else room

/-- `start_game` (server.py:714-830), state-transition part: build and
shuffle the deck, deal 5 cards to every seat, flip the first discard,
choose the dealer (the previous round's loser if still seated, else the
random choice `dealer_choice`), seat after the dealer acts first, then
apply the first card's own special effect (6/7 forced draw + skip, 8-chain
in the 52-card variant, A skip, Q auto-chooses the random suit
`q_suit`). -/
def start_game (shuffle : List Card → List Card) (dealer_choice : Nat) (q_suit : String)
    (room0 : Room) : Room :=
  let roomA := { room0 with
    game_started := true, deck := shuffle (create_deck_cards room0.deck_size) }
  let dealt := deal_all roomA.players roomA.deck
  let roomB := { roomA with players := dealt.1, deck := dealt.2 }
  match drawTop roomB.deck with
  | none => roomB
  | some fd =>
    let roomC := { roomB with deck := fd.2, discard_pile := [fd.1] }
    let dealer_index := start_game_dealer dealer_choice roomC
    let roomD := { roomC with
      dealer_index := dealer_index,
      current_player_index := (dealer_index + 1) % roomC.players.length }
    start_game_first_effect shuffle q_suit fd.1 roomD

/-- `Player.to_dict` (server.py:30-38): the public view of a seat sent
inside every per-seat event's `players` list — the hand appears only as
`hand_count`. -/
structure PlayerPublic where
  id : String
  nickname : String
  hand_count : Nat
  ready : Bool
  score : Int
  is_bot : Bool
deriving DecidableEq, Repr

def Player.to_dict (p : Player) : PlayerPublic :=
  { id := p.id, nickname := p.nickname, hand_count := p.hand.length,
    ready := p.ready, score := p.score, is_bot := p.is_bot }

/-- The card-bearing content of one outbound per-seat event.  `hand` is the
event's own `hand` field (the recipient's cards), `players` the public
seat list (`Player.to_dict`, counts only), `table_cards` the `card` /
`top_card` fields (cards already on the discard pile), `result_hands` the
per-seat hands inside a `game_ended` event's `results` list.  Fields of
the JSON messages that carry no cards (nicknames, ids, flags, counters)
are not modelled. -/
structure SeatMessage where
  type : String
  recipient : String
  hand : List Card
  players : List PlayerPublic
  table_cards : List Card
  result_hands : List (String × List Card)
deriving DecidableEq, Repr

/-- The `game_started` event sent to seat `p` (server.py:787-815). -/
def game_started_message (room : Room) (first_card : Card) (p : Player) : SeatMessage :=
  { type := "game_started", recipient := p.id, hand := p.hand,
    players := room.players.map Player.to_dict,
    table_cards := [first_card], result_hands := [] }

/-- The `card_played` event sent to seat `p` (server.py:963-997): the played
card, the top discard, the recipient's own hand, public seat views. -/
def card_played_message (room : Room) (played_card : Card) (p : Player) : SeatMessage :=
  { type := "card_played", recipient := p.id, hand := p.hand,
    players := room.players.map Player.to_dict,
    table_cards := played_card :: room.discard_pile.getLast?.toList,
    result_hands := [] }

/-- The `card_drawn` event sent to seat `p` (server.py:1166-1187). -/
def card_drawn_message (room : Room) (p : Player) : SeatMessage :=
  { type := "card_drawn", recipient := p.id, hand := p.hand,
    players := room.players.map Player.to_dict,
    table_cards := room.discard_pile.getLast?.toList, result_hands := [] }

/-- The `turn_skipped` event sent to seat `p` (server.py:1394-1414). -/
def turn_skipped_message (room : Room) (p : Player) : SeatMessage :=
  { type := "turn_skipped", recipient := p.id, hand := p.hand,
    players := room.players.map Player.to_dict,
    table_cards := room.discard_pile.getLast?.toList, result_hands := [] }

/-- The `game_ended` event sent to seat `p` (server.py:1267-1273): the same
`results` list — including every non-winner's full remaining hand — goes
to every seat. -/
def game_ended_message (room : Room) (winner_id : String) (p : Player) : SeatMessage :=
  let qb := queen_bonus room.discard_pile.getLast?
  let results := room.players.map (result_entry winner_id qb)
  { type := "game_ended", recipient := p.id, hand := [],
    players := [],
    table_cards := room.discard_pile.getLast?.toList,
    result_hands := results.map (fun r => (r.player_id, r.hand)) }

/-- All hand-content cards an event carries: the recipient's `hand` field
plus any hands inside a `game_ended` `results` list.  (`table_cards` are
discard-pile cards, not hand contents.) -/
def revealed_hand_cards (m : SeatMessage) : List Card :=
  m.hand ++ (m.result_hands.map Prod.snd).flatten

/-- A `handle_play_card` call that actually played the card (completed the
turn or ended the round), as opposed to an error reply or a silent
return. -/
def play_succeeded : PlayCardResult → Bool
  | .ok _ => true
  | .gameEnd _ _ => true
  | _ => false

/-- The documented legality rule, written from the spec's words (§4.2 /
claim C3): during an 8-chain a rank-2 or a card drawn during the chain;
otherwise a Queen always; otherwise with a chosen suit, that suit or the
top rank; otherwise the top card's suit or rank. -/
def legal_spec (waiting_for_eight : Bool) (eight_drawn_cards : List String)
    (chosen_suit : Option String) (top_card card : Card) : Bool :=
  if waiting_for_eight then card.rank == "2" || eight_drawn_cards.contains card.id
  else if card.rank == "Q" then true
  else
    match chosen_suit with
    | some s => card.suit == s || card.rank == top_card.rank
    | none => card.suit == top_card.suit || card.rank == top_card.rank

/-! Concrete cards, seats and rooms used by the witness and counterexample
theorems below.  Card ids mirror the uuid role of the source: distinct
opaque strings. -/

def cH2 : Card := ⟨"hearts", "2", "cH2"⟩

def cH5 : Card := ⟨"hearts", "5", "cH5"⟩

def cH6 : Card := ⟨"hearts", "6", "cH6"⟩

def cH7 : Card := ⟨"hearts", "7", "cH7"⟩

def cS9 : Card := ⟨"spades", "9", "cS9"⟩

def cD9 : Card := ⟨"diamonds", "9", "cD9"⟩

def cC4 : Card := ⟨"clubs", "4", "cC4"⟩

def cQS : Card := ⟨"spades", "Q", "cQS"⟩

def pAlice : Player := { id := "alice", nickname := "Alice", hand := [cH7], ready := true }

def pBob : Player := { id := "bob", nickname := "Bob", hand := [cS9], ready := true }

/-- A small started 2-seat room: Alice to move holding the 7 of hearts,
5 of hearts on top of the discard, one card in the deck, and Alice has
already taken her voluntary draw this turn. -/
def roomBasic : Room :=
  { players := [pAlice, pBob], deck := [cC4], discard_pile := [cH5],
    current_player_index := 0, dealer_index := 1, game_started := true,
    card_drawn_this_turn := true }

/-- The card valuation as the spec states it (§4.1): numeral ranks 2-10 at
face value, J=2, K=4, A=11, Q=20 and the Queen of spades 40. -/
def spec_card_value (c : Card) : Int :=
  if c.rank == "2" then 2
  else if c.rank == "3" then 3
  else if c.rank == "4" then 4
  else if c.rank == "5" then 5
  else if c.rank == "6" then 6
  else if c.rank == "7" then 7
  else if c.rank == "8" then 8
  else if c.rank == "9" then 9
  else if c.rank == "10" then 10
  else if c.rank == "J" then 2
  else if c.rank == "K" then 4
  else if c.rank == "A" then 11
  else if c.rank == "Q" then (if c.suit == "spades" then 40 else 20)
  else 0

/-- The queen bonus of a round in `handle_game_end`. -/
def ge_qb (room : Room) : Int := queen_bonus room.discard_pile.getLast?

/-- The broadcast results list built by `handle_game_end`. -/
def ge_results (room : Room) (w : String) : List RoundResult :=
  room.players.map (result_entry w (ge_qb room))

/-- The seats after the round tally in `handle_game_end`. -/
def ge_tallied (room : Room) (w : String) : List Player :=
  room.players.map (tally_player w (ge_qb room))

/-- The tallied seats after the exactly-101 reset (server.py:1248-1251). -/
def ge_processed (room : Room) (w : String) : List Player :=
  (ge_tallied room w).map (fun p => if p.score = 101 then { p with score := 0 } else p)

/-- The ids of the seats kicked for exceeding 101 (server.py:1252-1254). -/
def ge_kicked (room : Room) (w : String) : List String :=
  ((ge_tallied room w).filter (fun p => p.score > 101)).map Player.id

/-- A started 2-seat room with an empty draw pile and a single discard
card: the deck cannot be replenished. -/
def roomExhausted : Room :=
  { players := [pAlice, pBob], deck := [], discard_pile := [cH5],
    current_player_index := 0, dealer_index := 1, game_started := true }

/-- A finished round in which Alice (score 0) won by discarding the Queen
of spades. -/
def roomQSWin : Room :=
  { players := [{ pAlice with hand := [] }, pBob], deck := [],
    discard_pile := [cH5, cQS], current_player_index := 0, dealer_index := 1,
    game_started := true }

/-- Alice holds only the 6 of hearts; playing it on the 5 of hearts wins
the round while its forced-draw effect moves the deck's card into Bob's
hand. -/
def roomSixWin : Room :=
  { players := [{ pAlice with hand := [cH6] }, pBob], deck := [cC4],
    discard_pile := [cH5], current_player_index := 0, dealer_index := 1,
    game_started := true }

/-- Alice holds only the Queen of spades and wins by playing it. -/
def roomQueenPlay : Room :=
  { players := [{ pAlice with hand := [cQS] }, pBob], deck := [cC4],
    discard_pile := [cH5], current_player_index := 0, dealer_index := 1,
    game_started := true }

/-- A 2-seat lobby room with the 36-card variant configured, about to
start. -/
def roomLobby : Room :=
  { players := [{ pAlice with hand := [] }, { pBob with hand := [] }], deck := [],
    discard_pile := [], current_player_index := 0, dealer_index := 0,
    game_started := false, deck_size := 36 }

/-- A started room in 8-chain state: Alice must resolve the 8; the deck
holds two non-qualifying cards and the discard only its top. -/
def roomEight : Room :=
  { players := [{ pAlice with hand := [cH2] }, pBob], deck := [cC4, cD9],
    discard_pile := [cH5], current_player_index := 0, dealer_index := 1,
    game_started := true, waiting_for_eight := true, eight_draw_used := false,
    deck_size := 52 }

/-- `seat_draw` never changes the number of seats. -/
@[simp] lemma seat_draw_players_length (shuffle : List Card → List Card) (room : Room) (j : Nat) :
    (seat_draw shuffle room j).players.length = room.players.length := by
  unfold seat_draw
  rcases h : room.players.get? j with _ | pl
  · rfl
  · dsimp only
    rcases h2 : drawTop (replenish_deck shuffle room.deck room.discard_pile).1 with _ | ⟨c, d⟩ <;>
      simp [List.length_set]

/-- `play_board_update` never changes the number of seats. -/
@[simp] lemma play_board_update_players_length (room : Room) (player : Player) (card : Card) :
    (play_board_update room player card).players.length = room.players.length := by
  unfold play_board_update
  split <;> simp [List.length_set]

/-- `effects67` never changes the number of seats. -/
@[simp] lemma effects67_players_length (shuffle : List Card → List Card) (card : Card)
    (n : Nat) (room : Room) (next0 : Nat) :
    (effects67 shuffle card n room next0).1.players.length = room.players.length := by
  unfold effects67
  split
  · simp
  · split <;> simp

/-- Once the legality check has passed, `play_move` always plays the card:
the result is `ok` or `gameEnd`, never an error or a silent return. -/
lemma play_succeeded_play_move (shuffle : List Card → List Card) (room : Room)
    (player : Player) (card : Card) (cs : Option String)
    (hidx : room.current_player_index < room.players.length) :
    play_succeeded (play_move shuffle room player card cs) = true := by
  unfold play_move
  dsimp only
  rcases hg : (effects67 shuffle card (play_board_update room player card).players.length
      (play_board_update room player card)
      ((room.current_player_index + 1) % (play_board_update room player card).players.length)).1.players.get?
      room.current_player_index with _ | cur
  · rw [List.get?_eq_none] at hg
    simp only [effects67_players_length, play_board_update_players_length] at hg
    omega
  · dsimp only
    split <;> rfl

/-- `legal_spec` with no pending 8-chain coincides with the running
`can_play_card`. -/
lemma legal_spec_false (edc : List String) (cs : Option String) (top card : Card) :
    legal_spec false edc cs top card = can_play_card card top cs false := by
  simp [legal_spec, can_play_card]

/-- C10: the module defines `can_play_card` twice; the later 4-parameter
definition shadows the earlier 3-parameter one, and whenever
`waiting_for_eight` is false the two definitions agree on every card, top
card and chosen-suit value, so the shadowing does not alter non-8-chain
legality. -/
theorem c10_shadowed_can_play_card_agrees (card top_card : Card)
    (chosen_suit : Option String) :
    can_play_card card top_card chosen_suit false = can_play_card_v1 card top_card chosen_suit := by
  simp [can_play_card, can_play_card_v1]

/-- C3: for a card in the current player's hand of a started room with a
non-empty discard pile, `handle_play_card` accepts the play (moves the
card, i.e. returns `ok` or `gameEnd`) exactly when the documented
legality rule `legal_spec` holds: during an 8-chain a rank 2 or a card of
`eight_drawn_cards`; otherwise a Queen always; otherwise with a chosen
suit that suit or the top rank; otherwise the top card's suit or rank. -/
theorem c3_play_card_legality (shuffle : List Card → List Card) (room : Room)
    (player : Player) (card : Card) (top_card : Card) (card_id : String)
    (cs : Option String)
    (hstart : room.game_started = true)
    (hcur : room.players.get? room.current_player_index = some player)
    (hfind : player.hand.find? (fun c => c.id == card_id) = some card)
    (htop : room.discard_pile.getLast? = some top_card) :
    play_succeeded (handle_play_card shuffle room player.id card_id cs)
      = legal_spec room.waiting_for_eight room.eight_drawn_cards room.chosen_suit
          top_card card := by
  have hidx : room.current_player_index < room.players.length :=
    (List.get?_eq_some.mp hcur).1
  have hidx : room.current_player_index < room.players.length :=
    (List.get?_eq_some.mp hcur).1
  unfold handle_play_card
  rw [if_neg (by simp [hstart])]
  rw [hcur]
  dsimp only
  rw [if_neg (by simp)]
  rw [hfind]
  dsimp only
  rw [htop]
  dsimp only
  by_cases hw : room.waiting_for_eight = true
  · rw [if_pos hw]
    simp only [legal_spec, hw, if_true]
    by_cases h2 : card.rank = "2"
    · rw [if_neg (by simp [h2])]
      rw [play_succeeded_play_move _ _ _ _ _ (by simpa using hidx)]
      simp [h2]
    · by_cases hdr : room.eight_drawn_cards.contains card.id = true
      · rw [if_neg (fun h => h.2 hdr)]
        rw [play_succeeded_play_move _ _ _ _ _ (by simpa using hidx)]
        have hmem : card.id ∈ room.eight_drawn_cards := by simpa using hdr
        simp [hmem]
      · rw [if_pos ⟨by simpa using h2, by simpa using hdr⟩]
        have hnm : card.id ∉ room.eight_drawn_cards := by simpa using hdr
        simp [play_succeeded, beq_iff_eq, h2, hnm]
  · have hw2 : room.waiting_for_eight = false := by simpa using hw
    rw [if_neg (by simp [hw2])]
    simp only [hw2]
    rw [legal_spec_false]
    by_cases hl : can_play_card card top_card room.chosen_suit false = true
    · rw [if_neg (by simp [hl])]
      rw [play_succeeded_play_move _ _ _ _ _ hidx, hl]
    · rw [if_pos (by simpa using hl)]
      have hl2 : can_play_card card top_card room.chosen_suit false = false := by
        simpa using hl
      simp [play_succeeded, hl2]

/-- C9: in a started room, `handle_skip_turn` succeeds exactly when the
requester is the seat at `current_player_index`, no 8-chain is pending and
a card was already drawn this turn; on success the turn pointer advances
by exactly one seat and the drawn-this-turn latch resets (nothing else
changes); on any failed precondition an `error` event is replied and the
room is left unchanged. -/
theorem c9_skip_turn (room : Room) (player : Player) (pid : String)
    (hstart : room.game_started = true)
    (hcur : room.players.get? room.current_player_index = some player) :
    if player.id = pid ∧ room.waiting_for_eight = false ∧ room.card_drawn_this_turn = true
    then handle_skip_turn room pid =
      .ok { room with
        current_player_index := (room.current_player_index + 1) % room.players.length,
        card_drawn_this_turn := false }
    else ∃ msg, handle_skip_turn room pid = .error msg := by
  by_cases hcond : player.id = pid ∧ room.waiting_for_eight = false ∧
      room.card_drawn_this_turn = true
  · rw [if_pos hcond]
    obtain ⟨h1, h2, h3⟩ := hcond
    unfold handle_skip_turn
    rw [if_neg (by simp [hstart]), hcur]
    dsimp only
    rw [if_neg (not_not_intro h1), if_neg (by simp [h2]), if_neg (by simp [h3])]
  · rw [if_neg hcond]
    unfold handle_skip_turn
    rw [if_neg (by simp [hstart]), hcur]
    dsimp only
    by_cases hp : player.id = pid
    · by_cases hwe : room.waiting_for_eight = true
      · exact ⟨_, by rw [if_neg (not_not_intro hp), if_pos hwe]⟩
      · have hd : ¬ room.card_drawn_this_turn = true :=
          fun h => hcond ⟨hp, by simpa using hwe, h⟩
        exact ⟨_, by rw [if_neg (not_not_intro hp), if_neg hwe, if_pos hd]⟩
    · exact ⟨_, by rw [if_pos hp]⟩

/-- Witness for C3 at a concrete input: Alice plays the 7 of hearts on the
5 of hearts; the handler accepts and the documented rule agrees. -/
theorem c3_play_card_legality_witness :
    play_succeeded (handle_play_card (fun l => l) roomBasic pAlice.id "cH7" none)
      = legal_spec roomBasic.waiting_for_eight roomBasic.eight_drawn_cards
          roomBasic.chosen_suit cH5 cH7 :=
  c3_play_card_legality (fun l => l) roomBasic pAlice cH7 cH5 "cH7" none rfl rfl
    (by decide) rfl

/-- Witness for C9 at a concrete input: Alice, who already drew this turn
with no 8-chain pending, skips; the turn passes to Bob and the latch
resets. -/
theorem c9_skip_turn_witness :
    if pAlice.id = "alice" ∧ roomBasic.waiting_for_eight = false ∧
        roomBasic.card_drawn_this_turn = true
    then handle_skip_turn roomBasic "alice" =
      .ok { roomBasic with
        current_player_index := (roomBasic.current_player_index + 1) % roomBasic.players.length,
        card_drawn_this_turn := false }
    else ∃ msg, handle_skip_turn roomBasic "alice" = .error msg :=
  c9_skip_turn roomBasic pAlice "alice" rfl rfl

/-- When the draw pile is empty and the discard holds more than one card,
`replenish_deck` keeps exactly the former top as the discard and shuffles
the rest into the new draw pile. -/
lemma replenish_deck_fires (shuffle : List Card → List Card) (deck discard : List Card)
    (top : Card) (hdeck : deck = []) (htop : discard.getLast? = some top)
    (hlen : 1 < discard.length) :
    replenish_deck shuffle deck discard = (shuffle discard.dropLast, [top], true) := by
  unfold replenish_deck
  rw [if_pos ⟨by simp [hdeck], hlen⟩, htop]

/-- When the discard pile holds at most one card, `replenish_deck` changes
nothing. -/
lemma replenish_deck_noop (shuffle : List Card → List Card) (deck discard : List Card)
    (hlen : discard.length ≤ 1) :
    replenish_deck shuffle deck discard = (deck, discard, false) := by
  unfold replenish_deck
  rw [if_neg (fun h => absurd h.2 (by omega))]

/-- C8: `replenish_deck`, when the draw pile is empty and the discard pile
holds more than one card, moves every discard card except the top into a
reshuffled draw pile (a permutation of the discard minus its top) and
leaves the discard holding exactly the former top; when the discard holds
at most one card it changes nothing; and in that exhausted case a
voluntary draw on an empty deck is refused with an error event and no
card moves. -/
theorem c8_replenish_and_exhausted_draw (shuffle : List Card → List Card)
    (hperm : ∀ l, (shuffle l).Perm l) :
    (∀ deck discard top, deck = [] → discard.getLast? = some top → 1 < discard.length →
      (replenish_deck shuffle deck discard).2.1 = [top] ∧
      ((replenish_deck shuffle deck discard).1).Perm discard.dropLast ∧
      (replenish_deck shuffle deck discard).2.2 = true) ∧
    (∀ deck discard, discard.length ≤ 1 →
      replenish_deck shuffle deck discard = (deck, discard, false)) ∧
    (∀ room player pid, room.game_started = true →
      room.players.get? room.current_player_index = some player → player.id = pid →
      room.waiting_for_eight = false → room.card_drawn_this_turn = false →
      room.deck = [] → room.discard_pile.length ≤ 1 →
      handle_draw_card shuffle room pid = .error "Колода пуста") := by
  refine ⟨?_, replenish_deck_noop shuffle, ?_⟩
  · intro deck discard top hdeck htop hlen
    rw [replenish_deck_fires shuffle deck discard top hdeck htop hlen]
    exact ⟨rfl, hperm _, rfl⟩
  · intro room player pid hstart hcur hpid hw hd hdeck hdisc
    unfold handle_draw_card
    rw [if_neg (by simp [hstart]), hcur]
    dsimp only
    rw [if_neg (by simp [hpid]), if_neg (by simp [hw]), if_neg (by simp [hd])]
    rw [replenish_deck_noop shuffle room.deck room.discard_pile hdisc]
    dsimp only
    rw [hdeck]
    rfl

/-- Witness for C8 at concrete inputs: replenishing from a two-card discard
keeps the top `cS9`, and Alice's voluntary draw in `roomExhausted` is
refused. -/
theorem c8_replenish_and_exhausted_draw_witness :
    (replenish_deck (fun l => l) [] [cH5, cS9]).2.1 = [cS9] ∧
    handle_draw_card (fun l => l) roomExhausted "alice" = .error "Колода пуста" :=
  ⟨((c8_replenish_and_exhausted_draw (fun l => l) (fun l => List.Perm.refl l)).1
      [] [cH5, cS9] cS9 rfl rfl (by decide)).1,
   (c8_replenish_and_exhausted_draw (fun l => l) (fun l => List.Perm.refl l)).2.2
      roomExhausted pAlice "alice" rfl rfl rfl rfl rfl rfl (by decide)⟩

/-- The source valuation agrees with the spec's valuation on every card. -/
lemma calculate_card_points_eq_spec (c : Card) :
    calculate_card_points c = spec_card_value c := by
  unfold calculate_card_points spec_card_value
  by_cases h2 : c.rank == "2"
  · rw [if_pos h2, if_pos h2]
  · rw [if_neg h2, if_neg h2]
    by_cases h3 : c.rank == "3"
    · rw [if_pos h3, if_pos h3]
    · rw [if_neg h3, if_neg h3]
      by_cases h4 : c.rank == "4"
      · rw [if_pos h4, if_pos h4]
      · rw [if_neg h4, if_neg h4]
        by_cases h5 : c.rank == "5"
        · rw [if_pos h5, if_pos h5]
        · rw [if_neg h5, if_neg h5]
          by_cases h6 : c.rank == "6"
          · rw [if_pos h6, if_pos h6]
          · rw [if_neg h6, if_neg h6]
            by_cases h7 : c.rank == "7"
            · rw [if_pos h7, if_pos h7]
            · rw [if_neg h7, if_neg h7]
              by_cases h8 : c.rank == "8"
              · rw [if_pos h8, if_pos h8]
              · rw [if_neg h8, if_neg h8]
                by_cases h9 : c.rank == "9"
                · rw [if_pos h9, if_pos h9]
                · rw [if_neg h9, if_neg h9]
                  by_cases hT : c.rank == "10"
                  · rw [if_pos hT, if_pos hT]
                  · rw [if_neg hT, if_neg hT]
                    by_cases hJ : c.rank == "J"
                    · rw [if_pos hJ, if_pos hJ]
                    · rw [if_neg hJ, if_neg hJ]
                      by_cases hQ : c.rank == "Q"
                      · have hQ2 : c.rank = "Q" := by simpa using hQ
                        have hK : ¬((c.rank == "K") = true) := by rw [hQ2]; decide
                        have hA : ¬((c.rank == "A") = true) := by rw [hQ2]; decide
                        rw [if_pos hQ, if_neg hK, if_neg hA, if_pos hQ]
                      · rw [if_neg hQ]
                        by_cases hK : c.rank == "K"
                        · rw [if_pos hK, if_pos hK]
                        · rw [if_neg hK, if_neg hK]
                          by_cases hA : c.rank == "A"
                          · rw [if_pos hA, if_pos hA]
                          · rw [if_neg hA, if_neg hA, if_neg hQ]

/-- Hand points under the source valuation equal hand points under the
spec valuation. -/
lemma calculate_hand_points_spec (h : List Card) :
    calculate_hand_points h = (h.map spec_card_value).sum := by
  induction h with
  | nil => rfl
  | cons c t ih =>
    unfold calculate_hand_points at ih ⊢
    simp only [List.map_cons, List.sum_cons, ih, calculate_card_points_eq_spec c]

/-- The results list of `handle_game_end` is the per-seat tally, whatever
branch (destroy / survive) is taken afterwards. -/
lemma handle_game_end_results (room : Room) (w : String) :
    (handle_game_end room w).results
      = room.players.map (result_entry w (queen_bonus room.discard_pile.getLast?)) := by
  unfold handle_game_end
  dsimp only
  split <;> rfl

/-- `queen_bonus`, spelled out with propositional conditions. -/
lemma queen_bonus_eq (top : Card) :
    queen_bonus (some top)
      = (if top.rank = "Q" ∧ top.suit = "spades" then -40
         else if top.rank = "Q" then -20 else 0) := by
  unfold queen_bonus
  split_ifs <;> simp_all

/-- C6: on round end each non-winning seat's score increases by exactly the
point value of its remaining hand under the spec valuation (2-10 face,
J=2, K=4, A=11, Q=20, Q of spades 40), and the winner's score changes by
exactly −40 if the final discarded card is the Queen of spades, −20 for
any other Queen and 0 otherwise; the bonus can make the winner's score
negative (second conjunct: Alice ends at −40 in `roomQSWin`). -/
theorem c6_round_tally (room : Room) (winner_id : String) (top : Card)
    (htop : room.discard_pile.getLast? = some top) :
    (∀ i p, room.players.get? i = some p →
      ∃ r, (handle_game_end room winner_id).results.get? i = some r ∧
        r.player_id = p.id ∧
        (p.id ≠ winner_id → r.points = (p.hand.map spec_card_value).sum ∧
          r.total_score = p.score + (p.hand.map spec_card_value).sum) ∧
        (p.id = winner_id →
          r.points = (if top.rank = "Q" ∧ top.suit = "spades" then -40
            else if top.rank = "Q" then -20 else 0) ∧
          r.total_score = p.score + (if top.rank = "Q" ∧ top.suit = "spades" then -40
            else if top.rank = "Q" then -20 else 0))) ∧
    (∃ r, (handle_game_end roomQSWin "alice").results.get? 0 = some r ∧
      r.total_score < 0) := by
  constructor
  · intro i p hp
    refine ⟨result_entry winner_id (queen_bonus room.discard_pile.getLast?) p,
      ?_, ?_, ?_, ?_⟩
    · rw [handle_game_end_results, List.get?_map, hp]
      rfl
    · unfold result_entry
      split <;> rfl
    · intro hne
      unfold result_entry
      rw [if_pos hne]
      exact ⟨calculate_hand_points_spec p.hand, by rw [calculate_hand_points_spec]⟩
    · intro heq
      unfold result_entry
      rw [if_neg (not_not_intro heq), htop, queen_bonus_eq]
      exact ⟨rfl, rfl⟩
  · refine ⟨{ player_id := "alice"
              nickname := "Alice"
              points := -40
              total_score := -40
              hand := [] }, by decide, by decide⟩

/-- Witness for C6 at a concrete input: in `roomQSWin` Bob (the only
non-winner, holding the 9 of spades) is charged 9 points and Alice, who
won with the Queen of spades, is charged −40. -/
theorem c6_round_tally_witness :
    ∃ r, (handle_game_end roomQSWin "alice").results.get? 1 = some r ∧
      r.player_id = pBob.id ∧
      (pBob.id ≠ "alice" → r.points = (pBob.hand.map spec_card_value).sum ∧
        r.total_score = pBob.score + (pBob.hand.map spec_card_value).sum) ∧
      (pBob.id = "alice" →
        r.points = (if cQS.rank = "Q" ∧ cQS.suit = "spades" then -40
          else if cQS.rank = "Q" then -20 else 0) ∧
        r.total_score = pBob.score + (if cQS.rank = "Q" ∧ cQS.suit = "spades" then -40
          else if cQS.rank = "Q" then -20 else 0)) :=
  (c6_round_tally roomQSWin "alice" cQS rfl).1 1 pBob rfl

lemma handle_game_end_kicked_eq (room : Room) (w : String) :
    (handle_game_end room w).kicked = ge_kicked room w := by
  unfold handle_game_end ge_kicked ge_tallied ge_qb
  dsimp only
  split <;> rfl

lemma handle_game_end_results_eq (room : Room) (w : String) :
    (handle_game_end room w).results = ge_results room w := by
  rw [handle_game_end_results]
  rfl

lemma handle_game_end_destroyed_eq (room : Room) (w : String) :
    (handle_game_end room w).destroyed
      = decide (ge_kicked room w ≠ [] ∧
          room.players.length - (ge_kicked room w).length < 2) := by
  unfold handle_game_end ge_kicked ge_tallied ge_qb
  dsimp only
  split
  · rename_i h
    exact (decide_eq_true h).symm
  · rename_i h
    exact (decide_eq_false h).symm

lemma handle_game_end_room_survive (room : Room) (w : String)
    (h : ¬(ge_kicked room w ≠ [] ∧
        room.players.length - (ge_kicked room w).length < 2)) :
    (handle_game_end room w).room.players
      = ((ge_processed room w).filter
          (fun p => ¬ (ge_kicked room w).contains p.id)).map
        (fun p => { p with hand := [], ready := p.is_bot }) := by
  unfold handle_game_end ge_processed ge_kicked ge_tallied ge_qb
  dsimp only
  rw [if_neg (by exact_mod_cast h)]

lemma handle_game_end_room_destroy (room : Room) (w : String)
    (h : ge_kicked room w ≠ [] ∧
        room.players.length - (ge_kicked room w).length < 2) :
    (handle_game_end room w).room.players = ge_processed room w ∧
    (handle_game_end room w).final_winner
      = find_final_winner (ge_processed room w) (ge_kicked room w) := by
  unfold handle_game_end ge_processed ge_kicked ge_tallied ge_qb
  dsimp only
  rw [if_pos (by exact_mod_cast h)]
  exact ⟨rfl, rfl⟩

lemma tally_player_id (w : String) (qb : Int) (p : Player) :
    (tally_player w qb p).id = p.id := by
  unfold tally_player
  split <;> rfl

lemma result_entry_id (w : String) (qb : Int) (p : Player) :
    (result_entry w qb p).player_id = p.id := by
  unfold result_entry
  split <;> rfl

lemma result_entry_total (w : String) (qb : Int) (p : Player) :
    (result_entry w qb p).total_score = (tally_player w qb p).score := by
  unfold result_entry tally_player
  split_ifs <;> rfl

/-- The kicked ids are exactly the ids of the results whose running total
exceeds 101. -/
lemma ge_kicked_eq_results_filter (room : Room) (w : String) :
    ge_kicked room w
      = ((ge_results room w).filter (fun r => 101 < r.total_score)).map
          (fun r => r.player_id) := by
  unfold ge_kicked ge_results ge_tallied
  induction room.players with
  | nil => rfl
  | cons p t ih =>
    simp only [List.map_cons, List.filter_cons, result_entry_total]
    by_cases h : 101 < (tally_player w (ge_qb room) p).score
    · rw [if_pos (decide_eq_true h), if_pos (decide_eq_true h)]
      simp only [List.map_cons, ih, result_entry_id, tally_player_id]
    · rw [if_neg (by simpa using h), if_neg (by simpa using h)]
      exact ih

/-- If every seat of `l` is kicked, the final-winner fold leaves its
accumulator unchanged. -/
lemma find_final_winner_fold_skip (kicked : List String) :
    ∀ (l : List Player) (acc : Option (String × Int)),
      l.filter (fun p => ¬ kicked.contains p.id) = [] →
      l.foldl
        (fun (acc : Option (String × Int)) p =>
          if kicked.contains p.id then acc
          else
            match acc with
            | none => some (p.id, p.score)
            | some pr => if p.score < pr.2 then some (p.id, p.score) else acc)
        acc = acc := by
  intro l
  induction l with
  | nil => intro acc _; rfl
  | cons x t ih =>
    intro acc hf
    rw [List.filter_cons] at hf
    by_cases hx : kicked.contains x.id = true
    · rw [if_neg (by simp; exact List.elem_iff.mp hx)] at hf
      simp only [List.foldl_cons, if_pos hx]
      exact ih acc hf
    · rw [if_pos (by simp; exact fun hm => hx (List.elem_iff.mpr hm))] at hf
      exact absurd hf (by simp)

/-- If exactly one seat of `l` is not kicked, the final-winner search
returns that seat. -/
lemma find_final_winner_singleton (kicked : List String) :
    ∀ (l : List Player) (q : Player),
      l.filter (fun p => ¬ kicked.contains p.id) = [q] →
      find_final_winner l kicked = some q.id := by
  intro l
  induction l with
  | nil => intro q hf; exact absurd hf (by simp)
  | cons x t ih =>
    intro q hf
    rw [List.filter_cons] at hf
    by_cases hx : kicked.contains x.id = true
    · rw [if_neg (by simp; exact List.elem_iff.mp hx)] at hf
      unfold find_final_winner at ih ⊢
      simp only [List.foldl_cons, if_pos hx]
      exact ih q hf
    · rw [if_pos (by simp; exact fun hm => hx (List.elem_iff.mpr hm))] at hf
      obtain ⟨hxq, ht⟩ := List.cons_eq_cons.mp hf
      unfold find_final_winner
      simp only [List.foldl_cons, if_neg hx]
      rw [find_final_winner_fold_skip kicked t _ ht]
      simp [hxq]

lemma contains_iff_memS {l : List String} {a : String} : l.contains a = true ↔ a ∈ l :=
  List.elem_iff

/-- C5: after the round-end tally, the kicked seats are exactly those whose
running total exceeds 101; the room is destroyed exactly when the
removals leave fewer than 2 seats; in a surviving room every seat that
exceeded 101 is gone and every seat that landed exactly on 101 remains
with score 0; and on destruction, when exactly one seat survives the
kick, that seat is declared the final winner. -/
theorem c5_score_postprocessing (room : Room) (winner_id : String)
    (hnodup : (room.players.map Player.id).Nodup)
    (hp2 : 2 ≤ room.players.length) :
    ((handle_game_end room winner_id).kicked
      = ((handle_game_end room winner_id).results.filter
          (fun r => 101 < r.total_score)).map (fun r => r.player_id)) ∧
    ((handle_game_end room winner_id).destroyed
      = decide (room.players.length - (handle_game_end room winner_id).kicked.length < 2)) ∧
    ((handle_game_end room winner_id).destroyed = false →
      ∀ i p r, room.players.get? i = some p →
        (handle_game_end room winner_id).results.get? i = some r →
        ((101 < r.total_score →
            ∀ q ∈ (handle_game_end room winner_id).room.players, q.id ≠ p.id) ∧
         (r.total_score = 101 →
            ∃ q ∈ (handle_game_end room winner_id).room.players,
              q.id = p.id ∧ q.score = 0))) ∧
    ((handle_game_end room winner_id).destroyed = true →
      ∀ q, (handle_game_end room winner_id).room.players.filter
          (fun p => ¬ (handle_game_end room winner_id).kicked.contains p.id) = [q] →
        (handle_game_end room winner_id).final_winner = some q.id) := by
  have hkick := handle_game_end_kicked_eq room winner_id
  have hres := handle_game_end_results_eq room winner_id
  have hdes := handle_game_end_destroyed_eq room winner_id
  have htallmap : ((ge_tallied room winner_id).map Player.id).Nodup := by
    unfold ge_tallied
    rw [List.map_map]
    have hfe : (Player.id ∘ tally_player winner_id (ge_qb room)) = Player.id :=
      funext (tally_player_id winner_id (ge_qb room))
    rw [hfe]
    exact hnodup
  refine ⟨?_, ?_, ?_, ?_⟩
  · rw [hkick, hres, ge_kicked_eq_results_filter]
  · rw [hdes, hkick]
    by_cases hb : room.players.length - (ge_kicked room winner_id).length < 2
    · have hne : ge_kicked room winner_id ≠ [] := by
        intro h0
        rw [h0] at hb
        simp only [List.length_nil, Nat.sub_zero] at hb
        omega
      simp [hb, hne]
    · simp [hb]
  · intro hdf i p r hp hr
    have hcond : ¬(ge_kicked room winner_id ≠ [] ∧
        room.players.length - (ge_kicked room winner_id).length < 2) := by
      rw [hdes] at hdf
      simpa using hdf
    have hpl := handle_game_end_room_survive room winner_id hcond
    rw [hres] at hr
    unfold ge_results at hr
    rw [List.get?_map, hp, Option.map_some'] at hr
    have hr2 : result_entry winner_id (ge_qb room) p = r := by injection hr
    subst hr2
    have htal : (ge_tallied room winner_id).get? i
        = some (tally_player winner_id (ge_qb room) p) := by
      unfold ge_tallied
      rw [List.get?_map, hp, Option.map_some']
    have hmemt : tally_player winner_id (ge_qb room) p ∈ ge_tallied room winner_id :=
      List.get?_mem htal
    constructor
    · intro hscore q hq
      rw [result_entry_total] at hscore
      have hpk : p.id ∈ ge_kicked room winner_id := by
        unfold ge_kicked
        exact List.mem_map.mpr ⟨_, List.mem_filter.mpr ⟨hmemt, by simpa using hscore⟩,
          tally_player_id _ _ _⟩
      rw [hpl] at hq
      obtain ⟨q1, hq1, rfl⟩ := List.mem_map.mp hq
      obtain ⟨hq1mem, hq1f⟩ := List.mem_filter.mp hq1
      intro hqe
      have hqe2 : q1.id = p.id := hqe
      have hmemq : q1.id ∈ ge_kicked room winner_id := by rw [hqe2]; exact hpk
      have hq1f2 : q1.id ∉ ge_kicked room winner_id := by simpa using hq1f
      exact hq1f2 hmemq
    · intro h101
      rw [result_entry_total] at h101
      have hproc : ({ tally_player winner_id (ge_qb room) p with score := 0 })
          ∈ ge_processed room winner_id := by
        unfold ge_processed
        exact List.mem_map.mpr ⟨_, hmemt, by rw [if_pos h101]⟩
      have hnk : ¬ p.id ∈ ge_kicked room winner_id := by
        intro hmem
        unfold ge_kicked at hmem
        obtain ⟨t, htf, htid⟩ := List.mem_map.mp hmem
        obtain ⟨htmem, htsc⟩ := List.mem_filter.mp htf
        have hteq : t = tally_player winner_id (ge_qb room) p :=
          List.inj_on_of_nodup_map htallmap htmem hmemt
            (by rw [htid, tally_player_id])
        rw [hteq] at htsc
        rw [h101] at htsc
        exact absurd htsc (by decide)
      refine ⟨{ { tally_player winner_id (ge_qb room) p with score := 0 } with
        hand := [], ready := ({ tally_player winner_id (ge_qb room) p with
          score := 0 } : Player).is_bot }, ?_, ?_, rfl⟩
      · rw [hpl]
        refine List.mem_map.mpr ⟨_, List.mem_filter.mpr ⟨hproc, ?_⟩, rfl⟩
        simp only [decide_eq_true_eq, tally_player_id]
        exact fun hcm => hnk (contains_iff_memS.mp hcm)
      · exact tally_player_id _ _ _
  · intro hdt q hfq
    have hcond : ge_kicked room winner_id ≠ [] ∧
        room.players.length - (ge_kicked room winner_id).length < 2 := by
      rw [hdes] at hdt
      simpa using hdt
    obtain ⟨hplayers, hfw⟩ := handle_game_end_room_destroy room winner_id hcond
    rw [hplayers, hkick] at hfq
    rw [hfw]
    exact find_final_winner_singleton (ge_kicked room winner_id)
      (ge_processed room winner_id) q hfq

/-- Witness for C5 at a concrete input: in `roomQSWin` (distinct seat ids,
two seats) the kicked list is exactly the over-101 results. -/
theorem c5_score_postprocessing_witness :
    (handle_game_end roomQSWin "alice").kicked
      = ((handle_game_end roomQSWin "alice").results.filter
          (fun r => 101 < r.total_score)).map (fun r => r.player_id) :=
  (c5_score_postprocessing roomQSWin "alice" (by decide) (by decide)).1

/-- The hand carried by a results entry: the seat's remaining hand for a
non-winner, empty for the winner. -/
lemma result_entry_hand (w : String) (qb : Int) (p : Player) :
    (result_entry w qb p).hand = if p.id ≠ w then p.hand else [] := by
  unfold result_entry
  split_ifs <;> simp_all

lemma flatten_if_eq_filter (w : String) (l : List Player) :
    (l.map (fun q => if q.id ≠ w then q.hand else [])).flatten
      = ((l.filter (fun q => q.id ≠ w)).map (fun q => q.hand)).flatten := by
  induction l with
  | nil => rfl
  | cons q t ih =>
    rw [List.map_cons, List.flatten_cons, List.filter_cons]
    by_cases h : q.id ≠ w
    · rw [if_pos h, if_pos (by simpa using h), List.map_cons, List.flatten_cons, ih]
    · rw [if_neg h, if_neg (by simpa using h), List.nil_append, ih]

/-- C7 (amended): the per-seat events `game_started`, `card_played`,
`card_drawn` and `turn_skipped` reveal exactly the recipient's own hand,
with every seat otherwise represented only by its public view
(`Player.to_dict`, hand counts); the `game_ended` event, however, carries
in its `results` list the full remaining hand of every non-winning seat,
and the same list is sent to every seat. -/
theorem c7_per_seat_hand_privacy (room : Room) (p : Player) (first_card played : Card)
    (w : String) :
    revealed_hand_cards (game_started_message room first_card p) = p.hand ∧
    revealed_hand_cards (card_played_message room played p) = p.hand ∧
    revealed_hand_cards (card_drawn_message room p) = p.hand ∧
    revealed_hand_cards (turn_skipped_message room p) = p.hand ∧
    revealed_hand_cards (game_ended_message room w p)
      = ((room.players.filter (fun q => q.id ≠ w)).map (fun q => q.hand)).flatten := by
  refine ⟨by simp [revealed_hand_cards, game_started_message],
    by simp [revealed_hand_cards, card_played_message],
    by simp [revealed_hand_cards, card_drawn_message],
    by simp [revealed_hand_cards, turn_skipped_message], ?_⟩
  unfold revealed_hand_cards game_ended_message
  dsimp only
  rw [List.map_map, List.map_map]
  have hfe : ((Prod.snd ∘ fun r : RoundResult => (r.player_id, r.hand)) ∘
      result_entry w (queen_bonus room.discard_pile.getLast?))
      = fun q => if q.id ≠ w then q.hand else [] := by
    funext q
    exact result_entry_hand w _ q
  rw [hfe, flatten_if_eq_filter]
  simp

/-- C7 counterexample: the claim "every event sent to a specific seat
contains at most that seat's own hand contents" fails for `game_ended`:
the event sent to the winning seat Alice contains Bob's 9 of spades, a
card of another seat's hand and not of Alice's. -/
theorem c7_game_ended_reveals_other_hand :
    cS9 ∈ revealed_hand_cards
        (game_ended_message roomQSWin "alice" { pAlice with hand := [] }) ∧
    cS9 ∉ ({ pAlice with hand := [] } : Player).hand ∧
    cS9 ∈ pBob.hand ∧ pBob ∈ roomQSWin.players ∧
    pBob.id ≠ ({ pAlice with hand := [] } : Player).id := by decide

/-- `seat_draw` at seat `j` leaves every other seat's entry unchanged. -/
lemma seat_draw_get?_ne (shuffle : List Card → List Card) (room : Room) (j i : Nat)
    (h : i ≠ j) : (seat_draw shuffle room j).players.get? i = room.players.get? i := by
  unfold seat_draw
  rcases hj : room.players.get? j with _ | pl
  · rfl
  · dsimp only
    rcases h2 : drawTop (replenish_deck shuffle room.deck room.discard_pile).1 with _ | ⟨c, d⟩
    · rfl
    · dsimp only
      exact List.get?_set_ne _ _ (fun he => h he.symm)

/-- `effects67` leaves every seat other than `next0` unchanged. -/
lemma effects67_get?_ne (shuffle : List Card → List Card) (card : Card) (n : Nat)
    (room : Room) (next0 i : Nat) (h : i ≠ next0) :
    (effects67 shuffle card n room next0).1.players.get? i = room.players.get? i := by
  unfold effects67
  split
  · exact seat_draw_get?_ne shuffle room next0 i h
  · split
    · rw [seat_draw_get?_ne _ _ next0 i h, seat_draw_get?_ne _ _ next0 i h]
    · rfl

/-- After the legality check passes, `handle_play_card` is `play_move` on
the (possibly 8-chain-cleared) room. -/
lemma handle_play_card_eq_play_move (shuffle : List Card → List Card) (room : Room)
    (player : Player) (card top_card : Card) (card_id : String) (cs : Option String)
    (hstart : room.game_started = true)
    (hcur : room.players.get? room.current_player_index = some player)
    (hfind : player.hand.find? (fun c => c.id == card_id) = some card)
    (htop : room.discard_pile.getLast? = some top_card)
    (hlegal : legal_spec room.waiting_for_eight room.eight_drawn_cards room.chosen_suit
      top_card card = true) :
    handle_play_card shuffle room player.id card_id cs
      = play_move shuffle
          (if room.waiting_for_eight then
            { room with
                waiting_for_eight := false
                eight_draw_used := false
                eight_drawn_cards := [] }
          else room) player card cs := by
  unfold handle_play_card
  rw [if_neg (by simp [hstart]), hcur]
  dsimp only
  rw [if_neg (by simp), hfind]
  dsimp only
  rw [htop]
  dsimp only
  by_cases hw : room.waiting_for_eight = true
  · rw [if_pos hw, if_pos hw]
    unfold legal_spec at hlegal
    rw [if_pos hw] at hlegal
    rw [if_neg]
    intro hand
    rcases Bool.or_eq_true_iff.mp hlegal with h2 | hdr
    · exact hand.1 (by simpa using h2)
    · exact hand.2 hdr
  · have hw2 : room.waiting_for_eight = false := by simpa using hw
    unfold legal_spec at hlegal
    rw [if_neg (by simp [hw2])] at hlegal
    have hcp : can_play_card card top_card room.chosen_suit room.waiting_for_eight
        = true := by
      unfold can_play_card
      rw [hw2]
      rw [if_neg (by simp)]
      exact hlegal
    rw [if_neg (by simp [hw2]), if_neg (not_not_intro hcp), if_neg (by simp [hw2])]

/-- C1 counterexample: in `roomSixWin` the winning 6 DOES apply its effect —
the round ends (`gameEnd`), but the next seat's hand has grown from 1 to 2
cards and the deck from 1 to 0, contradicting "the next seat's hand and
the deck are unchanged" for a winning 6. -/
theorem c1_winning_six_changes_next_hand :
    (match handle_play_card (fun l => l) roomSixWin "alice" "cH6" none with
     | .gameEnd r _ => some ((r.players.map (fun p => p.hand.length)), r.deck.length)
     | _ => none) = some ([0, 2], 0) := by decide

lemma effects67_other (shuffle : List Card → List Card) (card : Card) (n : Nat)
    (room : Room) (next0 : Nat) (h6 : card.rank ≠ "6") (h7 : card.rank ≠ "7") :
    effects67 shuffle card n room next0 = (room, next0) := by
  unfold effects67
  rw [if_neg (by simp [h6]), if_neg (by simp [h7])]

lemma play_board_update_deck (room : Room) (player : Player) (card : Card) :
    (play_board_update room player card).deck = room.deck := by
  unfold play_board_update
  split <;> rfl

lemma play_board_update_index (room : Room) (player : Player) (card : Card) :
    (play_board_update room player card).current_player_index
      = room.current_player_index := by
  unfold play_board_update
  split <;> rfl

lemma play_board_update_waiting (room : Room) (player : Player) (card : Card) :
    (play_board_update room player card).waiting_for_eight = room.waiting_for_eight := by
  unfold play_board_update
  split <;> rfl

lemma play_board_update_get?_ne (room : Room) (player : Player) (card : Card) (j : Nat)
    (hj : j ≠ room.current_player_index) :
    (play_board_update room player card).players.get? j = room.players.get? j := by
  unfold play_board_update
  split <;>
    exact List.get?_set_ne _ _ (fun he => hj he.symm)

/-- A play that empties the hand ends the round at once (`gameEnd`), and
when the winning card is not a 6 or a 7 no effect fires: the deck, the
turn pointer and every other seat's entry are untouched. -/
lemma play_move_win (shuffle : List Card → List Card) (room : Room) (player : Player)
    (card : Card) (cs : Option String)
    (hidx : room.current_player_index < room.players.length)
    (hp2 : 2 ≤ room.players.length)
    (hwin : player.hand.erase card = []) :
    ∃ room1, play_move shuffle room player card cs = .gameEnd room1 player.id ∧
      (card.rank ≠ "6" → card.rank ≠ "7" →
        room1.deck = room.deck ∧
        room1.current_player_index = room.current_player_index ∧
        room1.waiting_for_eight = room.waiting_for_eight ∧
        ∀ j, j ≠ room.current_player_index → room1.players.get? j = room.players.get? j) := by
  have hne : room.current_player_index
      ≠ (room.current_player_index + 1)
          % (play_board_update room player card).players.length := by
    rw [play_board_update_players_length]
    by_cases hlt : room.current_player_index + 1 < room.players.length
    · rw [Nat.mod_eq_of_lt hlt]
      omega
    · have h1 : room.current_player_index + 1 = room.players.length := by omega
      rw [h1, Nat.mod_self]
      omega
  have hget2 : (play_board_update room player card).players.get? room.current_player_index
      = some { player with hand := player.hand.erase card } := by
    unfold play_board_update
    split <;>
      exact List.get?_set_eq_of_lt _ hidx
  unfold play_move
  dsimp only
  rcases hS : (effects67 shuffle card (play_board_update room player card).players.length
      (play_board_update room player card)
      ((room.current_player_index + 1) %
        (play_board_update room player card).players.length)).1.players.get?
      room.current_player_index with _ | cur
  · rw [effects67_get?_ne _ _ _ _ _ _ hne, hget2] at hS
    exact absurd hS (by simp)
  · have hcur2 : cur = { player with hand := player.hand.erase card } := by
      rw [effects67_get?_ne _ _ _ _ _ _ hne, hget2] at hS
      injection hS with h
      exact h.symm
    dsimp only
    rw [if_pos (by rw [hcur2]; dsimp only; rw [hwin]; rfl)]
    refine ⟨_, rfl, fun h6 h7 => ?_⟩
    rw [effects67_other _ _ _ _ _ h6 h7]
    exact ⟨play_board_update_deck room player card,
      play_board_update_index room player card,
      play_board_update_waiting room player card,
      fun j hj => play_board_update_get?_ne room player card j hj⟩

/-- C1 (amended): a legal play that empties the hand ends the round
immediately (`handle_game_end` is invoked before the turn advances), and
when the winning card is NOT a 6 or a 7 — i.e. an 8, A, Q or plain card —
none of its special effects is applied: the deck, the turn pointer and
every other seat's hand are unchanged and no 8-chain is raised (only the
Queen scoring bonus applies at the tally).  A winning 6 or 7 DOES apply
its forced-draw effect to the next seat before the round ends (see the
counterexample `c1_winning_six_changes_next_hand`). -/
theorem c1_win_ends_round (shuffle : List Card → List Card) (room : Room)
    (player : Player) (card top_card : Card) (card_id : String) (cs : Option String)
    (hstart : room.game_started = true)
    (hcur : room.players.get? room.current_player_index = some player)
    (hfind : player.hand.find? (fun c => c.id == card_id) = some card)
    (htop : room.discard_pile.getLast? = some top_card)
    (hlegal : legal_spec room.waiting_for_eight room.eight_drawn_cards room.chosen_suit
      top_card card = true)
    (hp2 : 2 ≤ room.players.length)
    (hwin : player.hand.erase card = []) :
    ∃ room1, handle_play_card shuffle room player.id card_id cs
        = .gameEnd room1 player.id ∧
      (card.rank ≠ "6" → card.rank ≠ "7" →
        room1.deck = room.deck ∧
        room1.current_player_index = room.current_player_index ∧
        room1.waiting_for_eight = false ∧
        ∀ j, j ≠ room.current_player_index →
          room1.players.get? j = room.players.get? j) := by
  have hidx : room.current_player_index < room.players.length :=
    (List.get?_eq_some.mp hcur).1
  rw [handle_play_card_eq_play_move shuffle room player card top_card card_id cs hstart
    hcur hfind htop hlegal]
  by_cases hw : room.waiting_for_eight = true
  · rw [if_pos hw]
    exact play_move_win shuffle
      { room with
          waiting_for_eight := false
          eight_draw_used := false
          eight_drawn_cards := [] } player card cs hidx hp2 hwin
  · have hw2 : room.waiting_for_eight = false := by simpa using hw
    rw [if_neg hw]
    obtain ⟨room1, heq, hprops⟩ := play_move_win shuffle room player card cs hidx hp2 hwin
    exact ⟨room1, heq, fun h6 h7 => by
      obtain ⟨a, b, c, d⟩ := hprops h6 h7
      exact ⟨a, b, by rw [c, hw2], d⟩⟩

/-- Witness for C1 at a concrete input: Alice's winning Queen of spades
ends the round with the deck, the turn pointer and Bob's seat untouched. -/
theorem c1_win_ends_round_witness :
    ∃ room1, handle_play_card (fun l => l) roomQueenPlay
        ({ pAlice with hand := [cQS] } : Player).id "cQS" none
        = .gameEnd room1 ({ pAlice with hand := [cQS] } : Player).id ∧
      (cQS.rank ≠ "6" → cQS.rank ≠ "7" →
        room1.deck = roomQueenPlay.deck ∧
        room1.current_player_index = roomQueenPlay.current_player_index ∧
        room1.waiting_for_eight = false ∧
        ∀ j, j ≠ roomQueenPlay.current_player_index →
          room1.players.get? j = roomQueenPlay.players.get? j) :=
  c1_win_ends_round (fun l => l) roomQueenPlay { pAlice with hand := [cQS] } cQS cH5
    "cQS" none rfl rfl (by decide) rfl (by decide) (by decide) (by decide)

/-- Replacing seat `j` changes the total hand count by the difference of the
two hands. -/
lemma sum_map_set (l : List Player) (j : Nat) (p q : Player)
    (h : l.get? j = some p) :
    ((l.set j q).map (fun x => x.hand.length)).sum + p.hand.length
      = (l.map (fun x => x.hand.length)).sum + q.hand.length := by
  induction l generalizing j with
  | nil => simp at h
  | cons x t ih =>
    cases j with
    | zero =>
      injection h with h
      subst h
      simp only [List.set_cons_zero, List.map_cons, List.sum_cons]
      omega
    | succ j =>
      simp only [List.set_cons_succ, List.map_cons, List.sum_cons]
      have := ih j h
      omega

/-- `replenish_deck` conserves the number of cards in deck + discard. -/
lemma replenish_deck_length_sum (shuffle : List Card → List Card)
    (hlen : ∀ l, (shuffle l).length = l.length) (deck discard : List Card) :
    (replenish_deck shuffle deck discard).1.length
      + (replenish_deck shuffle deck discard).2.1.length
      = deck.length + discard.length := by
  unfold replenish_deck
  split
  · rename_i h
    rcases hg : discard.getLast? with _ | top
    · rfl
    · dsimp only
      rw [hlen, List.length_dropLast]
      simp only [List.length_cons, List.length_nil]
      omega
  · rfl

/-- Popping the top removes exactly one card. -/
lemma drawTop_length (deck deck' : List Card) (c : Card)
    (h : drawTop deck = some (c, deck')) : deck'.length + 1 = deck.length := by
  unfold drawTop at h
  rcases hg : deck.getLast? with _ | x
  · rw [hg] at h
    exact absurd h (by simp)
  · rw [hg] at h
    have hne : deck ≠ [] := by
      intro h0
      rw [h0] at hg
      simp at hg
    injection h with h2
    have h4 : deck' = deck.dropLast := (congrArg Prod.snd h2).symm
    rw [h4, List.length_dropLast]
    have := List.length_pos.mpr hne
    omega

/-- `drawTop` fails exactly on the empty deck. -/
lemma drawTop_eq_none (deck : List Card) : drawTop deck = none ↔ deck = [] := by
  unfold drawTop
  rcases hg : deck.getLast? with _ | x
  · simp [List.getLast?_eq_none_iff.mp hg]
  · constructor
    · intro h
      exact absurd h (by simp)
    · intro h
      rw [h] at hg
      simp at hg

/-- A forced single draw conserves the total card count. -/
lemma seat_draw_total (shuffle : List Card → List Card)
    (hlen : ∀ l, (shuffle l).length = l.length) (room : Room) (j : Nat) :
    totalCards (seat_draw shuffle room j) = totalCards room := by
  unfold seat_draw
  rcases hj : room.players.get? j with _ | pl
  · rfl
  · dsimp only
    rcases hd : drawTop (replenish_deck shuffle room.deck room.discard_pile).1
      with _ | ⟨c, deck'⟩
    · unfold totalCards
      dsimp only
      have := replenish_deck_length_sum shuffle hlen room.deck room.discard_pile
      omega
    · unfold totalCards
      dsimp only
      have h1 := replenish_deck_length_sum shuffle hlen room.deck room.discard_pile
      have h2 := drawTop_length _ _ _ hd
      have h3 := sum_map_set room.players j pl { pl with hand := pl.hand ++ [c] } hj
      have h4 : ({ pl with hand := pl.hand ++ [c] } : Player).hand.length
          = pl.hand.length + 1 := by simp
      rw [h4] at h3
      omega

/-- Moving the played card from the hand to the discard pile conserves the
total card count. -/
lemma play_board_update_total (room : Room) (player : Player) (card : Card)
    (hcur : room.players.get? room.current_player_index = some player)
    (hmem : card ∈ player.hand) :
    totalCards (play_board_update room player card) = totalCards room := by
  unfold play_board_update totalCards
  have h3 := sum_map_set room.players room.current_player_index player
    { player with hand := player.hand.erase card } hcur
  have h4 : ({ player with hand := player.hand.erase card } : Player).hand.length
      = player.hand.length - 1 := by
    simp [List.length_erase_of_mem hmem]
  rw [h4] at h3
  have h5 := List.length_pos_of_mem hmem
  split <;> (dsimp only; simp only [List.length_append, List.length_cons,
    List.length_nil]; omega)

/-- The 6/7 forced-draw effects conserve the total card count. -/
lemma effects67_total (shuffle : List Card → List Card)
    (hlen : ∀ l, (shuffle l).length = l.length) (card : Card) (n : Nat) (room : Room)
    (next0 : Nat) :
    totalCards (effects67 shuffle card n room next0).1 = totalCards room := by
  unfold effects67
  split
  · exact seat_draw_total shuffle hlen room next0
  · split
    · exact (seat_draw_total shuffle hlen _ next0).trans
        (seat_draw_total shuffle hlen room next0)
    · rfl

/-- The post-win 8/Q effects touch no cards. -/
lemma post_effects_total (card : Card) (cs : Option String) (room : Room) :
    totalCards (post_effects card cs room) = totalCards room := by
  unfold post_effects
  split
  · rfl
  · split
    · split <;> rfl
    · rfl

/-- `play_move` conserves the total card count on both of its successful
outcomes. -/
lemma play_move_total (shuffle : List Card → List Card)
    (hlen : ∀ l, (shuffle l).length = l.length) (room : Room) (player : Player)
    (card : Card) (cs : Option String)
    (hcur : room.players.get? room.current_player_index = some player)
    (hmem : card ∈ player.hand) :
    (∀ room1, play_move shuffle room player card cs = .ok room1 →
      totalCards room1 = totalCards room) ∧
    (∀ room1 w, play_move shuffle room player card cs = .gameEnd room1 w →
      totalCards room1 = totalCards room) := by
  have hstep : totalCards (effects67 shuffle card
      (play_board_update room player card).players.length
      (play_board_update room player card)
      ((room.current_player_index + 1) %
        (play_board_update room player card).players.length)).1
      = totalCards room := by
    rw [effects67_total shuffle hlen, play_board_update_total room player card hcur hmem]
  constructor
  · intro room1 hres
    unfold play_move at hres
    dsimp only at hres
    split at hres
    · exact absurd hres (by simp)
    · split at hres
      · exact absurd hres (by simp)
      · injection hres with h1
        rw [← h1]
        exact (post_effects_total card cs _).trans hstep
  · intro room1 w hres
    unfold play_move at hres
    dsimp only at hres
    split at hres
    · exact absurd hres (by simp)
    · split at hres
      · injection hres with h1 h2
        rw [← h1]
        exact hstep
      · exact absurd hres (by simp)

/-- `handle_play_card` conserves the total card count on both successful
outcomes. -/
lemma handle_play_card_total (shuffle : List Card → List Card)
    (hlen : ∀ l, (shuffle l).length = l.length) (room : Room) (pid card_id : String)
    (cs : Option String) :
    (∀ room1, handle_play_card shuffle room pid card_id cs = .ok room1 →
      totalCards room1 = totalCards room) ∧
    (∀ room1 w, handle_play_card shuffle room pid card_id cs = .gameEnd room1 w →
      totalCards room1 = totalCards room) := by
  constructor
  · intro room1 hres
    unfold handle_play_card at hres
    split at hres
    · exact absurd hres (by simp)
    · split at hres
      · exact absurd hres (by simp)
      · rename_i player hcur
        split at hres
        · exact absurd hres (by simp)
        · split at hres
          · exact absurd hres (by simp)
          · rename_i card hfind
            split at hres
            · exact absurd hres (by simp)
            · split at hres
              · split at hres
                · exact absurd hres (by simp)
                · exact (play_move_total shuffle hlen
                    { room with
                        waiting_for_eight := false
                        eight_draw_used := false
                        eight_drawn_cards := [] } player card cs hcur
                    (List.mem_of_find?_eq_some hfind)).1 room1 hres
              · split at hres
                · exact absurd hres (by simp)
                · exact (play_move_total shuffle hlen room player card cs hcur
                    (List.mem_of_find?_eq_some hfind)).1 room1 hres
  · intro room1 w hres
    unfold handle_play_card at hres
    split at hres
    · exact absurd hres (by simp)
    · split at hres
      · exact absurd hres (by simp)
      · rename_i player hcur
        split at hres
        · exact absurd hres (by simp)
        · split at hres
          · exact absurd hres (by simp)
          · rename_i card hfind
            split at hres
            · exact absurd hres (by simp)
            · split at hres
              · split at hres
                · exact absurd hres (by simp)
                · exact (play_move_total shuffle hlen
                    { room with
                        waiting_for_eight := false
                        eight_draw_used := false
                        eight_drawn_cards := [] } player card cs hcur
                    (List.mem_of_find?_eq_some hfind)).2 room1 w hres
              · split at hres
                · exact absurd hres (by simp)
                · exact (play_move_total shuffle hlen room player card cs hcur
                    (List.mem_of_find?_eq_some hfind)).2 room1 w hres

/-- The 8-chain draw loop conserves deck + discard + hand. -/
lemma eight_draw_loop_total (shuffle : List Card → List Card)
    (hlen : ∀ l, (shuffle l).length = l.length) :
    ∀ (fuel : Nat) (deck discard hand drawn : List Card),
      (eight_draw_loop shuffle fuel deck discard hand drawn).1.length
        + (eight_draw_loop shuffle fuel deck discard hand drawn).2.1.length
        + (eight_draw_loop shuffle fuel deck discard hand drawn).2.2.1.length
      = deck.length + discard.length + hand.length := by
  intro fuel
  induction fuel with
  | zero => intro deck discard hand drawn; rfl
  | succ fuel ih =>
    intro deck discard hand drawn
    have hrep := replenish_deck_length_sum shuffle hlen deck discard
    simp only [eight_draw_loop]
    rcases hd : drawTop (replenish_deck shuffle deck discard).1 with _ | ⟨c, deck2⟩
    · dsimp only
      omega
    · have hdl := drawTop_length _ _ _ hd
      dsimp only
      rcases hg : (replenish_deck shuffle deck discard).2.1.getLast? with _ | top
      · dsimp only
        omega
      · dsimp only
        split
        · simp only [List.length_append, List.length_cons, List.length_nil]
          omega
        · have := ih deck2 (replenish_deck shuffle deck discard).2.1
            (hand ++ [c]) (drawn ++ [c])
          simp only [List.length_append, List.length_cons, List.length_nil] at this
          omega

/-- `handle_draw_card` conserves the total card count on success. -/
lemma handle_draw_card_total (shuffle : List Card → List Card)
    (hlen : ∀ l, (shuffle l).length = l.length) (room : Room) (pid : String) :
    ∀ room1 drawn, handle_draw_card shuffle room pid = .ok room1 drawn →
      totalCards room1 = totalCards room := by
  intro room1 drawn hres
  unfold handle_draw_card at hres
  dsimp only at hres
  split at hres
  · exact absurd hres (by simp)
  · split at hres
    · exact absurd hres (by simp)
    · rename_i player hcur
      split at hres
      · exact absurd hres (by simp)
      · split at hres
        · split at hres
          · exact absurd hres (by simp)
          · have hloop := eight_draw_loop_total shuffle hlen 1000 room.deck
              room.discard_pile player.hand []
            have hset := sum_map_set room.players room.current_player_index player
              { player with hand := (eight_draw_loop shuffle 1000 room.deck
                room.discard_pile player.hand []).2.2.1 } hcur
            have hh : ({ player with hand := (eight_draw_loop shuffle 1000 room.deck
                room.discard_pile player.hand []).2.2.1 } : Player).hand.length
                = (eight_draw_loop shuffle 1000 room.deck room.discard_pile
                    player.hand []).2.2.1.length := rfl
            rw [hh] at hset
            split at hres
            · injection hres with h1 h2
              rw [← h1]
              unfold totalCards
              dsimp only
              omega
            · split at hres
              · injection hres with h1 h2
                rw [← h1]
                unfold totalCards
                dsimp only
                omega
              · injection hres with h1 h2
                rw [← h1]
                unfold totalCards
                dsimp only
                omega
        · split at hres
          · exact absurd hres (by simp)
          · split at hres
            · exact absurd hres (by simp)
            · rename_i c deck' hdt
              injection hres with h1 h2
              rw [← h1]
              have hrep := replenish_deck_length_sum shuffle hlen room.deck
                room.discard_pile
              have hdl := drawTop_length _ _ _ hdt
              have hset := sum_map_set room.players room.current_player_index player
                { player with hand := player.hand ++ [c] } hcur
              have hh : ({ player with hand := player.hand ++ [c] } : Player).hand.length
                  = player.hand.length + 1 := by simp
              rw [hh] at hset
              unfold totalCards
              dsimp only
              omega

/-- `handle_skip_turn` conserves the total card count on success. -/
lemma handle_skip_turn_total (room : Room) (pid : String) :
    ∀ room1, handle_skip_turn room pid = .ok room1 →
      totalCards room1 = totalCards room := by
  intro room1 h
  unfold handle_skip_turn at h
  split at h
  · exact absurd h (by simp)
  · split at h
    · exact absurd h (by simp)
    · split at h
      · exact absurd h (by simp)
      · split at h
        · exact absurd h (by simp)
        · split at h
          · exact absurd h (by simp)
          · injection h with h1
            rw [← h1]
            rfl

/-- Dealing `k` cards conserves the cards between the dealt packet and the
remaining deck. -/
lemma deal_cards_total : ∀ (k : Nat) (deck : List Card),
    (deal_cards deck k).1.length + (deal_cards deck k).2.length = deck.length := by
  intro k
  induction k with
  | zero => intro deck; simp [deal_cards]
  | succ k ih =>
    intro deck
    unfold deal_cards
    rcases hd : drawTop deck with _ | ⟨c, deck'⟩
    · simp
    · have hdl := drawTop_length _ _ _ hd
      have := ih deck'
      dsimp only
      simp only [List.length_cons]
      omega

/-- Dealing to every seat conserves the cards between the dealt hands and
the remaining deck. -/
lemma deal_all_total : ∀ (ps : List Player) (deck : List Card),
    ((deal_all ps deck).1.map (fun x => x.hand.length)).sum
      + (deal_all ps deck).2.length = deck.length := by
  intro ps
  induction ps with
  | nil => intro deck; simp [deal_all]
  | cons p t ih =>
    intro deck
    unfold deal_all
    dsimp only
    simp only [List.map_cons, List.sum_cons]
    have h1 := deal_cards_total 5 deck
    have h2 := ih (deal_cards deck 5).2
    omega

/-- The first-card effect at game start conserves the total card count. -/
lemma start_game_first_effect_total (shuffle : List Card → List Card)
    (hlen : ∀ l, (shuffle l).length = l.length) (q_suit : String) (fc : Card)
    (room : Room) :
    totalCards (start_game_first_effect shuffle q_suit fc room) = totalCards room := by
  unfold start_game_first_effect
  dsimp only
  split
  · exact seat_draw_total shuffle hlen room room.current_player_index
  · split
    · exact (seat_draw_total shuffle hlen _ _).trans
        (seat_draw_total shuffle hlen room room.current_player_index)
    · split
      · rfl
      · split
        · rfl
        · split
          · rfl
          · rfl

lemma create_deck_cards_length_36 : (create_deck_cards 36).length = 36 := rfl

lemma create_deck_cards_length_52 : (create_deck_cards 52).length = 52 := rfl

/-- `start_game` establishes the conservation invariant: when the first
discard can be flipped, the total card count of the started room equals
the configured deck size. -/
lemma start_game_total (shuffle : List Card → List Card)
    (hlen : ∀ l, (shuffle l).length = l.length) (dealer_choice : Nat) (q_suit : String)
    (room0 : Room) (hds : room0.deck_size = 36 ∨ room0.deck_size = 52)
    (hflip : drawTop
        (deal_all room0.players (shuffle (create_deck_cards room0.deck_size))).2
      ≠ none) :
    totalCards (start_game shuffle dealer_choice q_suit room0) = room0.deck_size := by
  unfold start_game
  dsimp only
  rcases hfd : drawTop
      (deal_all room0.players (shuffle (create_deck_cards room0.deck_size))).2
    with _ | ⟨fc, deck'⟩
  · exact absurd hfd hflip
  · dsimp only
    rw [start_game_first_effect_total shuffle hlen q_suit fc]
    unfold totalCards
    dsimp only
    have h1 := deal_all_total room0.players (shuffle (create_deck_cards room0.deck_size))
    have h2 := hlen (create_deck_cards room0.deck_size)
    have h3 := drawTop_length _ _ _ hfd
    have h4 : (create_deck_cards room0.deck_size).length = room0.deck_size := by
      rcases hds with h | h <;> rw [h] <;> rfl
    simp only [List.length_cons, List.length_nil]
    omega

/-- C2: Conservation.  `start_game` (when the first discard can be flipped)
establishes |deck| + |discard| + Σ|hand_i| = deck_size, and every accepted
per-turn action — a completed or round-ending card play, a voluntary or
8-chain draw (including any deck replenishment they perform), and a skip —
preserves the total |deck| + |discard| + Σ|hand_i|. -/
theorem c2_conservation (shuffle : List Card → List Card)
    (hlen : ∀ l, (shuffle l).length = l.length) (room : Room)
    (pid card_id : String) (cs : Option String) (dealer_choice : Nat) (q_suit : String)
    (room0 : Room) (hds : room0.deck_size = 36 ∨ room0.deck_size = 52)
    (hflip : drawTop
        (deal_all room0.players (shuffle (create_deck_cards room0.deck_size))).2
      ≠ none) :
    (totalCards (start_game shuffle dealer_choice q_suit room0) = room0.deck_size) ∧
    (∀ room1, handle_play_card shuffle room pid card_id cs = .ok room1 →
      totalCards room1 = totalCards room) ∧
    (∀ room1 w, handle_play_card shuffle room pid card_id cs = .gameEnd room1 w →
      totalCards room1 = totalCards room) ∧
    (∀ room1 drawn, handle_draw_card shuffle room pid = .ok room1 drawn →
      totalCards room1 = totalCards room) ∧
    (∀ room1, handle_skip_turn room pid = .ok room1 →
      totalCards room1 = totalCards room) :=
  ⟨start_game_total shuffle hlen dealer_choice q_suit room0 hds hflip,
   (handle_play_card_total shuffle hlen room pid card_id cs).1,
   (handle_play_card_total shuffle hlen room pid card_id cs).2,
   handle_draw_card_total shuffle hlen room pid,
   handle_skip_turn_total room pid⟩

/-- Witness for C2 at a concrete input: starting the 36-card `roomLobby`
yields a room holding exactly 36 cards in deck + discard + hands. -/
theorem c2_conservation_witness :
    totalCards (start_game (fun l => l) 0 "hearts" roomLobby) = roomLobby.deck_size :=
  (c2_conservation (fun l => l) (fun l => rfl) roomBasic "alice" "x" none 0 "hearts"
    roomLobby (Or.inl rfl) (by decide)).1

/-- `replenish_deck` never changes the top of the discard pile. -/
lemma replenish_deck_top (shuffle : List Card → List Card) (deck discard : List Card) :
    (replenish_deck shuffle deck discard).2.1.getLast? = discard.getLast? := by
  unfold replenish_deck
  split
  · rcases hg : discard.getLast? with _ | top
    · exact hg
    · rfl
  · rfl

/-- When `replenish_deck` leaves an empty draw pile, the deck was already
empty and the discard holds at most one card: the room is exhausted. -/
lemma replenish_deck_exhausted (shuffle : List Card → List Card)
    (hlen : ∀ l, (shuffle l).length = l.length) (deck discard : List Card)
    (h : (replenish_deck shuffle deck discard).1 = []) :
    deck = [] ∧ discard.length ≤ 1 := by
  unfold replenish_deck at h
  by_cases hc : deck.length = 0 ∧ discard.length > 1
  · rw [if_pos hc] at h
    rcases hg : discard.getLast? with _ | top
    · exfalso
      have h0 : discard = [] := List.getLast?_eq_none_iff.mp hg
      rw [h0] at hc
      simp at hc
    · rw [hg] at h
      dsimp only at h
      exfalso
      have h2 : (shuffle discard.dropLast).length = 0 := by rw [h]; rfl
      rw [hlen, List.length_dropLast] at h2
      omega
  · rw [if_neg hc] at h
    have h2 : deck = [] := h
    refine ⟨h2, ?_⟩
    by_contra hgt
    exact hc ⟨by rw [h2]; rfl, by omega⟩

/-- The 8-chain draw loop, characterised: with enough fuel (more than
deck + discard) and a non-empty discard pile, the loop appends the same
new cards to the hand and the drawn list, draws at most deck + discard
cards, never changes the top discard, every drawn card except possibly the
last fails the qualification test, and it stops either because the last
drawn card qualifies or because the room is exhausted (empty deck, at most
one discard card) with every drawn card failing. -/
lemma eight_draw_loop_spec (shuffle : List Card → List Card)
    (hlen : ∀ l, (shuffle l).length = l.length) (top : Card) :
    ∀ (fuel : Nat) (deck discard hand drawn : List Card),
      deck.length + discard.length < fuel →
      discard.getLast? = some top →
      ∃ new,
        (eight_draw_loop shuffle fuel deck discard hand drawn).2.2.2 = drawn ++ new ∧
        (eight_draw_loop shuffle fuel deck discard hand drawn).2.2.1 = hand ++ new ∧
        new.length ≤ deck.length + discard.length ∧
        (eight_draw_loop shuffle fuel deck discard hand drawn).2.1.getLast?
          = some top ∧
        (∀ x ∈ new.dropLast, eight_match x top = false) ∧
        ((∃ last, new.getLast? = some last ∧ eight_match last top = true) ∨
          ((eight_draw_loop shuffle fuel deck discard hand drawn).1 = [] ∧
            (eight_draw_loop shuffle fuel deck discard hand drawn).2.1.length ≤ 1 ∧
            ∀ x ∈ new, eight_match x top = false)) := by
  intro fuel
  induction fuel with
  | zero =>
    intro deck discard hand drawn hb htop
    exact absurd hb (by omega)
  | succ fuel ih =>
    intro deck discard hand drawn hb htop
    have hrep := replenish_deck_length_sum shuffle hlen deck discard
    have htop1 : (replenish_deck shuffle deck discard).2.1.getLast? = some top := by
      rw [replenish_deck_top shuffle deck discard, htop]
    simp only [eight_draw_loop]
    rcases hd : drawTop (replenish_deck shuffle deck discard).1 with _ | ⟨c, deck2⟩
    · dsimp only
      have hex := replenish_deck_exhausted shuffle hlen deck discard
        ((drawTop_eq_none _).mp hd)
      refine ⟨[], by simp, by simp, by simp, htop1, by simp, Or.inr ⟨?_, ?_, by simp⟩⟩
      · exact (drawTop_eq_none _).mp hd
      · have h0 : (replenish_deck shuffle deck discard).1.length = 0 := by
          rw [(drawTop_eq_none _).mp hd]
          rfl
        have h1 : deck.length = 0 := by
          rw [hex.1]
          rfl
        omega
    · have hdl := drawTop_length _ _ _ hd
      dsimp only
      rw [htop1]
      dsimp only
      by_cases hm : eight_match c top = true
      · rw [if_pos hm]
        refine ⟨[c], rfl, rfl, by simp; omega, htop1, by simp, Or.inl ⟨c, rfl, hm⟩⟩
      · rw [if_neg hm]
        have hmf : eight_match c top = false := by simpa using hm
        have hb2 : deck2.length + (replenish_deck shuffle deck discard).2.1.length
            < fuel := by omega
        obtain ⟨new1, h1, h2, h3, h4, h5, h6⟩ := ih deck2
          (replenish_deck shuffle deck discard).2.1 (hand ++ [c]) (drawn ++ [c])
          hb2 htop1
        refine ⟨c :: new1, ?_, ?_, ?_, h4, ?_, ?_⟩
        · rw [h1, List.append_assoc]
          rfl
        · rw [h2, List.append_assoc]
          rfl
        · simp only [List.length_cons]
          omega
        · intro x hx
          rcases new1 with _ | ⟨y, t⟩
          · simp at hx
          · rw [List.dropLast_cons₂] at hx
            rcases List.mem_cons.mp hx with h | h
            · rw [h]
              exact hmf
            · exact h5 x h
        · rcases h6 with ⟨last, hlast, hmatch⟩ | ⟨hek, hel, hall⟩
          · left
            refine ⟨last, ?_, hmatch⟩
            rcases new1 with _ | ⟨y, t⟩
            · simp at hlast
            · rw [List.getLast?_cons_cons]
              exact hlast
          · right
            refine ⟨hek, hel, ?_⟩
            intro x hx
            rcases List.mem_cons.mp hx with h | h
            · rw [h]
              exact hmf
            · exact hall x h

/-- C4: an 8-chain draw resolution (current seat, 8-chain pending, draw not
yet used) always succeeds; it draws at most deck-size cards (the
`max_iterations = 1000` fuel of the source never binds, since
deck + discard ≤ deck_size ≤ 52); every drawn card except the last fails
the qualification test (rank 2, Q or 8, or the top discard's suit), so the
loop stopped at the first qualifying card; and either the last drawn card
qualifies — the chain stays pending with the drawn ids recorded — or the
room was exhausted (empty deck, at most one discard card) with no drawn
card qualifying, in which case the chain is cleared, the drawn-ids list is
emptied, and the turn advances by exactly one seat. -/
theorem c4_eight_chain_draw (shuffle : List Card → List Card)
    (hlen : ∀ l, (shuffle l).length = l.length) (room : Room) (player : Player)
    (pid : String) (top : Card)
    (hstart : room.game_started = true)
    (hcur : room.players.get? room.current_player_index = some player)
    (hpid : player.id = pid)
    (hw : room.waiting_for_eight = true)
    (hused : room.eight_draw_used = false)
    (htop : room.discard_pile.getLast? = some top)
    (hsize : room.deck.length + room.discard_pile.length ≤ room.deck_size)
    (hds : room.deck_size = 36 ∨ room.deck_size = 52) :
    ∃ room1 drawn, handle_draw_card shuffle room pid = .ok room1 drawn ∧
      drawn.length ≤ room.deck_size ∧
      (∀ x ∈ drawn.dropLast, eight_match x top = false) ∧
      ((∃ last, drawn.getLast? = some last ∧ eight_match last top = true ∧
          room1.waiting_for_eight = true ∧
          room1.eight_drawn_cards
            = room.eight_drawn_cards ++ drawn.map (fun c => c.id)) ∨
        (room1.deck = [] ∧ room1.discard_pile.length ≤ 1 ∧
          (∀ x ∈ drawn, eight_match x top = false) ∧
          room1.waiting_for_eight = false ∧ room1.eight_drawn_cards = [] ∧
          room1.current_player_index
            = (room.current_player_index + 1) % room.players.length)) := by
  have hb : room.deck.length + room.discard_pile.length < 1000 := by
    rcases hds with h | h <;> omega
  obtain ⟨new, hdr, hhand, hlen2, htop1, hdrop, hstop⟩ :=
    eight_draw_loop_spec shuffle hlen top 1000 room.deck room.discard_pile
      player.hand [] hb htop
  rw [List.nil_append] at hdr
  unfold handle_draw_card
  rw [if_neg (by simp [hstart]), hcur]
  dsimp only
  rw [if_neg (by simp [hpid]), if_pos hw, if_neg (by simp [hused])]
  by_cases hnew : new = []
  · rw [if_pos (by rw [hdr, hnew]; rfl)]
    have hexh : (eight_draw_loop shuffle 1000 room.deck room.discard_pile
        player.hand []).1 = [] ∧
        (eight_draw_loop shuffle 1000 room.deck room.discard_pile
          player.hand []).2.1.length ≤ 1 := by
      rcases hstop with ⟨last, hlast, _⟩ | ⟨ha, hb2, _⟩
      · rw [hnew] at hlast
        exact absurd hlast (by simp)
      · exact ⟨ha, hb2⟩
    refine ⟨_, [], rfl, by simp, by simp, Or.inr ⟨hexh.1, hexh.2, by simp, rfl, rfl, ?_⟩⟩
    dsimp only
    rw [List.length_set]
  · rw [if_neg (by rw [hdr]; simp [hnew])]
    have hlast : ∃ last, new.getLast? = some last := by
      rcases hg : new.getLast? with _ | last
      · exact absurd (List.getLast?_eq_none_iff.mp hg) hnew
      · exact ⟨last, rfl⟩
    obtain ⟨last, hlastEq⟩ := hlast
    have hdrLast : (eight_draw_loop shuffle 1000 room.deck room.discard_pile
        player.hand []).2.2.2.getLast? = some last := by
      rw [hdr]
      exact hlastEq
    rw [hdrLast, htop1]
    dsimp only
    rcases hstop with ⟨last2, hlast2, hmatch⟩ | ⟨hek, hel, hall⟩
    · have hle : last2 = last := by
        rw [hlastEq] at hlast2
        injection hlast2 with h
        exact h.symm
      rw [hle] at hmatch
      rw [if_pos hmatch]
      refine ⟨_, (eight_draw_loop shuffle 1000 room.deck room.discard_pile
        player.hand []).2.2.2, rfl, ?_, ?_, Or.inl ⟨last, ?_, hmatch, hw, ?_⟩⟩
      · rw [hdr]
        rcases hds with h | h <;> omega
      · rw [hdr]
        exact hdrop
      · exact hdrLast
      · rfl
    · have hmemL : last ∈ new := by
        obtain ⟨hne2, hEq⟩ := List.mem_getLast?_eq_getLast
          (show last ∈ new.getLast? from hlastEq)
        rw [hEq]
        exact List.getLast_mem hne2
      have hlf : eight_match last top = false := hall last hmemL
      rw [if_neg (by simp [hlf])]
      refine ⟨_, (eight_draw_loop shuffle 1000 room.deck room.discard_pile
        player.hand []).2.2.2, rfl, ?_, ?_, Or.inr ⟨hek, hel, ?_, rfl, rfl, ?_⟩⟩
      · rw [hdr]
        rcases hds with h | h <;> omega
      · rw [hdr]
        exact hdrop
      · rw [hdr]
        exact hall
      · dsimp only
        rw [List.length_set]

/-- Witness for C4 at a concrete input: in `roomEight` Alice's 8-chain draw
empties the two-card deck without finding a qualifying card, so the chain
is cleared and the turn passes to Bob. -/
theorem c4_eight_chain_draw_witness :
    ∃ room1 drawn, handle_draw_card (fun l => l) roomEight "alice" = .ok room1 drawn ∧
      drawn.length ≤ roomEight.deck_size ∧
      (∀ x ∈ drawn.dropLast, eight_match x cH5 = false) ∧
      ((∃ last, drawn.getLast? = some last ∧ eight_match last cH5 = true ∧
          room1.waiting_for_eight = true ∧
          room1.eight_drawn_cards
            = roomEight.eight_drawn_cards ++ drawn.map (fun c => c.id)) ∨
        (room1.deck = [] ∧ room1.discard_pile.length ≤ 1 ∧
          (∀ x ∈ drawn, eight_match x cH5 = false) ∧
          room1.waiting_for_eight = false ∧ room1.eight_drawn_cards = [] ∧
          room1.current_player_index
            = (roomEight.current_player_index + 1) % roomEight.players.length)) :=
  c4_eight_chain_draw (fun l => l) (fun l => rfl) roomEight
    { pAlice with hand := [cH2] } "alice" cH5 rfl rfl rfl rfl rfl rfl
    (by decide) (Or.inr rfl)

end CzechFool
